import Mathlib

/-!
Verification of idf-rpc-server: numeric validator, typed parsers and dispatch adapters.

A shallow embedding of `src/RpcServer.cpp` / `src/RpcServer.h`.

* A C `char` is modelled by a Lean `Char`; only the ASCII classification of a
  character matters to the program (`isdigit`, `isalnum`, comparison with
  `'-'`, `'x'`, `'X'`), and every non-ASCII code point is classified like a
  byte above 127 in the "C" locale: neither digit nor letter.
* A `const char*` argument is modelled by the list of characters stored from
  the pointer onwards.  The C string it denotes is the part before the first
  NUL character (`cstr`); a list without NUL is a string whose terminator
  directly follows it.
* `long` has `w` bits, `w` being a parameter (32 on the ESP32 target);
  `short` has 16 bits and `int` has 32 bits.
* `strtol` comes from the C library, it is modelled after ISO C (C99/C11
  7.22.1.4) for the only way the program calls it: base 0, no end pointer.
-/

namespace RpcServer

/-! ## C strings and `<ctype.h>` -/

/-- The terminating character of a C string. -/
def NUL : Char := Char.ofNat 0

/-- The C string stored at a pointer: the characters before the first NUL. -/
def cstr (p : List Char) : List Char := p.takeWhile (fun c => c != NUL)

/-- The function `strlen` of `<string.h>`. -/
def strlen (p : List Char) : Nat := (cstr p).length

/-- The function `isdigit` of `<ctype.h>`. -/
def isdigit (c : Char) : Bool := decide (48 ≤ c.toNat) && decide (c.toNat ≤ 57)

/-- The function `isupper` of `<ctype.h>` in the "C" locale. -/
def isupper (c : Char) : Bool := decide (65 ≤ c.toNat) && decide (c.toNat ≤ 90)

/-- The function `islower` of `<ctype.h>` in the "C" locale. -/
def islower (c : Char) : Bool := decide (97 ≤ c.toNat) && decide (c.toNat ≤ 122)

/-- The function `isalnum` of `<ctype.h>` in the "C" locale. -/
def isalnum (c : Char) : Bool := isdigit c || isupper c || islower c

/-- The function `isspace` of `<ctype.h>` in the "C" locale: space, `\t`, `\n`, `\v`, `\f`, `\r`. -/
def isspace (c : Char) : Bool :=
  decide (c.toNat = 32) || (decide (9 ≤ c.toNat) && decide (c.toNat ≤ 13))

/-! ## `isNumber` (RpcServer.cpp, lines 18-47) -/

/-- The validator `isNumber`, branch for branch as in the source; the closing
`for` loop returns `false` at the first index `i ≥ 2` below `string_len` whose
character is not alphanumeric and `true` when there is none. -/
def isNumber (string : List Char) : Bool :=
  let s := cstr string
  let string_len := s.length
  if string_len < 1 then false
  else if s.head? != some '-' && !(s.head?.any isdigit) then false
  else if string_len == 1 then true
  else if !((s.get? 1).any isdigit) && s.get? 1 != some 'x' && s.get? 1 != some 'X' then false
  else if string_len == 2 then true
  else (s.drop 2).all isalnum

/-! ## `strtol(nptr, nullptr, 0)` of the C library -/

/-- Value of a character as a digit of `strtol`: `0`-`9`, then the letters of
either case from 10 upwards; `none` for any other character. -/
def digitOf (c : Char) : Option Nat :=
  if isdigit c then some (c.toNat - 48)
  else if isupper c then some (c.toNat - 65 + 10)
  else if islower c then some (c.toNat - 97 + 10)
  else none

/-- The function `isxdigit` of `<ctype.h>`. -/
def isxdigit (c : Char) : Bool := (digitOf c).any (fun d => decide (d < 16))

/-- The digit loop of `strtol`: consumes characters while they are digits of
the base and accumulates the (unbounded) magnitude; stops at the first
character that is not a digit of the base. -/
def accumulate (base : Nat) : List Char → Nat → Nat
  | [], acc => acc
  | c :: cs, acc =>
    match digitOf c with
    | some d => if d < base then accumulate base cs (acc * base + d) else acc
    | none => acc

/-- Largest value of a `long` of `w` bits. -/
def LONG_MAX (w : Nat) : Int := 2 ^ (w - 1) - 1

/-- Smallest value of a `long` of `w` bits. -/
def LONG_MIN (w : Nat) : Int := -(2 ^ (w - 1))

/-- The call `strtol(nptr, nullptr, 0)` for a `long` of `w` bits: skips white
space, reads an optional sign, detects the base (`0x`/`0X` followed by a
hexadecimal digit: 16; a leading `0`: 8; otherwise 10), converts the longest
run of digits of that base, and returns the value, or `LONG_MAX` / `LONG_MIN`
when the value is out of the range of `long`.  No digits at all gives 0. -/
def strtol (w : Nat) (nptr : List Char) : Int :=
  let s := (cstr nptr).dropWhile isspace
  let neg := s.head? == some '-'
  let s := if s.head? == some '-' || s.head? == some '+' then s.tail else s
  let hex := s.head? == some '0' && (s.get? 1 == some 'x' || s.get? 1 == some 'X')
    && (s.get? 2).any isxdigit
  let base := if hex then 16 else if s.head? == some '0' then 8 else 10
  let s := if hex then s.drop 2 else s
  let mag : Int := (accumulate base s 0 : Nat)
  if neg then max (-mag) (LONG_MIN w) else min mag (LONG_MAX w)

/-! ## Limits and conversions of the fixed-width types -/

/-- The limit `SHRT_MAX` of `<limits.h>`. -/
def SHRT_MAX : Int := 32767
/-- The limit `SHRT_MIN` of `<limits.h>`. -/
def SHRT_MIN : Int := -32768
/-- The limit `USHRT_MAX` of `<limits.h>`. -/
def USHRT_MAX : Int := 65535
/-- The limit `INT_MAX` of `<limits.h>`. -/
def INT_MAX : Int := 2147483647
/-- The limit `INT_MIN` of `<limits.h>`. -/
def INT_MIN : Int := -2147483648
/-- The limit `UINT_MAX` of `<limits.h>`. -/
def UINT_MAX : Int := 4294967295
/-- The limit `ULONG_MAX` of `<limits.h>` for a `long` of `w` bits. -/
def ULONG_MAX (w : Nat) : Int := 2 ^ w - 1

/-- The conversion `(short)val`. -/
def toShort (val : Int) : Int := (val + 32768) % 65536 - 32768
/-- The conversion `(ushort)val`. -/
def toUshort (val : Int) : Int := val % 65536
/-- The conversion `(int)val`. -/
def toInt (val : Int) : Int := (val + 2147483648) % 4294967296 - 2147483648
/-- The conversion `(uint)val`. -/
def toUint (val : Int) : Int := val % 4294967296
/-- The conversion of a `long` to `unsigned long` (the assignment in `TryParseUlong`). -/
def toUlong (w : Nat) (val : Int) : Int := val % 2 ^ w

/-- The comparison `val <= UINT_MAX` of a `long val` with an `unsigned int`
under the usual arithmetic conversions: a `long` no wider than `unsigned int`
is converted to `unsigned long` first, a wider one holds every `unsigned int`
and the comparison is the signed one. -/
def le_UINT_MAX (w : Nat) (val : Int) : Bool :=
  if w ≤ 32 then decide (val % 2 ^ w ≤ UINT_MAX) else decide (val ≤ UINT_MAX)

/-! ## The typed parsers (RpcServer.cpp, lines 57-160)

Each parser takes the prior content of the output location `out` and returns
the flag together with the content of the output location after the call. -/

/-- The parser `TryParseShort`. -/
def TryParseShort (w : Nat) (input : List Char) (out : Int) : Bool × Int :=
  if isNumber input then
    let val := strtol w input
    if val ≤ SHRT_MAX ∧ val ≥ SHRT_MIN then (true, toShort val) else (false, out)
  else (false, out)

/-- The parser `TryParseUshort`. -/
def TryParseUshort (w : Nat) (input : List Char) (out : Int) : Bool × Int :=
  if isNumber input then
    let val := strtol w input
    if val ≤ USHRT_MAX ∧ val ≥ 0 then (true, toUshort val) else (false, out)
  else (false, out)

/-- The parser `TryParseInt`. -/
def TryParseInt (w : Nat) (input : List Char) (out : Int) : Bool × Int :=
  if isNumber input then
    let val := strtol w input
    if val ≤ INT_MAX ∧ val ≥ INT_MIN then (true, toInt val) else (false, out)
  else (false, out)

/-- The parser `TryParseUint`. -/
def TryParseUint (w : Nat) (input : List Char) (out : Int) : Bool × Int :=
  if isNumber input then
    let val := strtol w input
    if le_UINT_MAX w val = true ∧ val ≥ 0 then (true, toUint val) else (false, out)
  else (false, out)

/-- The parser `TryParseLong`. -/
def TryParseLong (w : Nat) (input : List Char) (out : Int) : Bool × Int :=
  if isNumber input then (true, strtol w input) else (false, out)

/-- The parser `TryParseUlong`. -/
def TryParseUlong (w : Nat) (input : List Char) (out : Int) : Bool × Int :=
  if isNumber input then (true, toUlong w (strtol w input)) else (false, out)

/-! ## The transport as one adapter invocation sees it

The HTTP server of ESP-IDF is an external collaborator.  One request is
modelled by the data the adapters read from it, and the effects of an adapter
by the record of the transport operations it performed. -/

/-- Result code `ESP_OK` of `esp_err.h`. -/
def ESP_OK : Int := 0
/-- Result code `ESP_FAIL` of `esp_err.h`. -/
def ESP_FAIL : Int := -1
/-- Result code `ESP_ERR_INVALID_ARG` of `esp_err.h`. -/
def ESP_ERR_INVALID_ARG : Int := 0x102
/-- Result code `ESP_ERR_NOT_FOUND` of `esp_err.h`. -/
def ESP_ERR_NOT_FOUND : Int := 0x105

/-- Status line `HTTPD_400` of `esp_http_server.h`. -/
def HTTPD_400 : String := "400 Bad Request"
/-- Status line `HTTPD_404` of `esp_http_server.h`. -/
def HTTPD_404 : String := "404 Not Found"
/-- Status line `HTTPD_500` of `esp_http_server.h`. -/
def HTTPD_500 : String := "500 Internal Server Error"

/-- One inbound request (`httpd_req_t`): the query string of its URI, the
bytes of its body, and the result with which the transport will answer the
adapter's `httpd_resp_send`. -/
structure Request where
  query : List Char
  content : List Char
  send_result : Int

/-- What one adapter invocation did: the status line it set, if any (`none`:
`httpd_resp_set_status` was never called and the transport's default
"200 OK" stands), the bodies it passed to `httpd_resp_send` in order, the
arguments with which it called the registered setter in order, and the value
it returned to the transport. -/
structure Outcome where
  status : Option String
  sent : List (List Char)
  setter_calls : List Int
  ret : Int

/-- The operation `httpd_req_recv(req, buf, buf_len)`: delivers the first
`buf_len` bytes of the body, or the whole body when it is shorter. -/
def httpd_req_recv (req : Request) (buf_len : Nat) : List Char := req.content.take buf_len

/-- A custom handler (`rpc_handler_t`): from the request facade and the
content of the response buffer before the call to the result code and the
content of the response buffer after the call. -/
abbrev rpc_handler_t := Request → List Char → Int × List Char

/-- A setter (`rpc_set_handler_t<T>`): from the value to a result code. -/
abbrev rpc_set_handler_t := Int → Int

/-! ## The dispatch adapters (RpcServer.cpp, lines 363-512; RpcServer.h, lines 135-142) -/

/-- The custom-handler adapter `RpcServer::Handle`.  `resp0` is the
(indeterminate) content of the local 256-byte buffer `resp` before the
handler runs; the body sent is the C string found in it afterwards
(`HTTPD_RESP_USE_STRLEN`). -/
def Handle (req : Request) (handler : rpc_handler_t) (resp0 : List Char) : Outcome :=
  let (res, resp) := handler req resp0
  let status : Option String :=
    if res ≠ 0 then
      if res = ESP_ERR_INVALID_ARG then some HTTPD_400
      else if res = ESP_ERR_NOT_FOUND then some HTTPD_404
      else some HTTPD_500
    else none
  { status := status, sent := [cstr resp], setter_calls := [], ret := req.send_result }

/-- The body shared by the numeric specialisations of `RpcServer::HandleSet`:
receive at most 16 bytes, terminate them, parse them into the local `val`
(whose indeterminate prior content is `val0`), call the setter only when the
parser succeeded (`||` short-circuits), set status 400 when the parser failed
or the setter returned non-zero, send an empty body and return the result of
the send.  `conv` is the conversion of `val` to the parameter type of the
function pointer the setter is called through. -/
def HandleSetNumeric (TryParse : List Char → Int → Bool × Int) (conv : Int → Int)
    (req : Request) (setter : rpc_set_handler_t) (val0 : Int) : Outcome :=
  let buf := httpd_req_recv req 16 ++ [NUL]
  let (ok, val) := TryParse buf val0
  if !ok then
    { status := some HTTPD_400, sent := [[]], setter_calls := [], ret := req.send_result }
  else if setter (conv val) ≠ 0 then
    { status := some HTTPD_400, sent := [[]], setter_calls := [conv val], ret := req.send_result }
  else
    { status := none, sent := [[]], setter_calls := [conv val], ret := req.send_result }

/-- The adapter `RpcServer::HandleSet<short>`. -/
def HandleSet_short (w : Nat) : Request → rpc_set_handler_t → Int → Outcome :=
  HandleSetNumeric (TryParseShort w) toShort

/-- The adapter `RpcServer::HandleSet<ushort>`. -/
def HandleSet_ushort (w : Nat) : Request → rpc_set_handler_t → Int → Outcome :=
  HandleSetNumeric (TryParseUshort w) toUshort

/-- The adapter `RpcServer::HandleSet<int>`. -/
def HandleSet_int (w : Nat) : Request → rpc_set_handler_t → Int → Outcome :=
  HandleSetNumeric (TryParseInt w) toInt

/-- The adapter `RpcServer::HandleSet<uint>`. -/
def HandleSet_uint (w : Nat) : Request → rpc_set_handler_t → Int → Outcome :=
  HandleSetNumeric (TryParseUint w) toUint

/-- The canonical decimal text of an integer: an optional leading `-`, then
the decimal digits without leading zeros (`0` for zero). -/
def decimal_text (v : Int) : List Char :=
  if v < 0 then '-' :: Nat.toDigits 10 v.natAbs else Nat.toDigits 10 v.natAbs

/-- The adapter `RpcServer::HandleSet<long>` (RpcServer.cpp, lines 462-478).
The setter is recovered as `rpc_set_handler_t<uint>`, so the call `setter(val)`
converts the `long` argument to `unsigned int`. -/
def HandleSet_long (w : Nat) : Request → rpc_set_handler_t → Int → Outcome :=
  HandleSetNumeric (TryParseLong w) toUint

/-- The adapter `RpcServer::HandleSet<ulong>` (RpcServer.cpp, lines 480-496).
The setter is recovered as `rpc_set_handler_t<uint>`, so the call `setter(val)`
converts the `unsigned long` argument to `unsigned int`. -/
def HandleSet_ulong (w : Nat) : Request → rpc_set_handler_t → Int → Outcome :=
  HandleSetNumeric (TryParseUlong w) toUint

/-- The adapter `RpcServer::HandleSet<const char*>` (RpcServer.cpp, lines
498-512): receives `content_len` bytes into a buffer of `content_len + 1`
bytes, terminates it, calls the setter with the buffer, sets status 400 when
the setter returns non-zero, sends an empty body and returns the result of the
send.  The second component lists the buffers the setter was called with. -/
def HandleSet_string (req : Request) (setter : List Char → Int) : Outcome × List (List Char) :=
  let len := req.content.length
  let buf := httpd_req_recv req len ++ [NUL]
  let status : Option String := if setter buf ≠ 0 then some HTTPD_400 else none
  ({ status := status, sent := [[]], setter_calls := [], ret := req.send_result }, [buf])

/-- The text `String(v)` of the Arduino core for a value of an integer type:
its decimal digits, with a leading `-` when negative. -/
def String_of (v : Int) : List Char := decimal_text v

/-- The adapter `RpcServer::HandleGet<T>` (RpcServer.h, lines 135-142) for an
integer type `T`.  The getter is a zero-argument function of the application;
`world` is the state of the application it reads and may change, so that the
state returned tells how often the getter ran.  The result of the send is
discarded and `ESP_OK` is returned. -/
def HandleGet {σ : Type} (_req : Request) (getter : σ → Int × σ) (world : σ) : Outcome × σ :=
  let (v, world1) := getter world
  let parsed := String_of v
  ({ status := none, sent := [cstr parsed], setter_calls := [], ret := ESP_OK }, world1)

/-! ## The endpoint registry (RpcServer.h, lines 56-119; RpcServer.cpp, lines 332-350) -/

/-- Method code `HTTP_GET` of `http_parser.h`. -/
def HTTP_GET : Nat := 1
/-- Method code `HTTP_PUT` of `http_parser.h`. -/
def HTTP_PUT : Nat := 4

/-- The dispatch adapter a route points to (the `handler` member). -/
inductive Adapter where
  | Handle
  | HandleGet
  | HandleSet
  deriving DecidableEq

/-- A route description (`httpd_uri_t`): full URI, method, adapter and the
opaque context pointer, which holds the address of the user callback. -/
structure httpd_uri_t where
  uri : List Char
  method : Nat
  handler : Adapter
  user_ctx : Nat
  deriving DecidableEq

/-- The external HTTP server as the registry sees it: its route table, the
registrations requested of it so far, and its verdict on a requested
registration given the table, a result code where `ESP_OK` accepts (this
covers a full table, a duplicate route, or any other rejection). -/
structure Server where
  routes : List httpd_uri_t
  attempts : List httpd_uri_t
  verdict : List httpd_uri_t → httpd_uri_t → Int

/-- The operation `httpd_register_uri_handler(server, &cfg)`: asks the server
for its verdict, adds the route to the table when it accepts, and returns the
verdict. -/
def httpd_register_uri_handler (server : Server) (cfg : httpd_uri_t) : Int × Server :=
  let e := server.verdict server.routes cfg
  (e, { routes := if e = ESP_OK then server.routes ++ [cfg] else server.routes,
        attempts := server.attempts ++ [cfg],
        verdict := server.verdict })

/-- The full endpoint path `ep`: `strcpy(ep, this->uri); strcat(ep, uri)`. -/
def endpoint (this_uri uri : List Char) : List Char := cstr this_uri ++ cstr uri

/-- The operation `RpcServer::RegisterHandler`.  `none` stands for the abort of
`assert(len > 0)`; otherwise the result of the server's registration is
returned unchanged. -/
def RegisterHandler (this_uri : List Char) (server : Server) (uri : List Char) (method : Nat)
    (handler : Nat) : Option (Int × Server) :=
  let len := strlen this_uri + strlen uri
  if len > 0 then
    some (httpd_register_uri_handler server
      { uri := endpoint this_uri uri, method := method, handler := Adapter.Handle,
        user_ctx := handler })
  else none

/-- The operation `RpcServer::RegisterGetHandler<T>`. -/
def RegisterGetHandler (this_uri : List Char) (server : Server) (uri : List Char)
    (getter : Nat) : Int × Server :=
  httpd_register_uri_handler server
    { uri := endpoint this_uri uri, method := HTTP_GET, handler := Adapter.HandleGet,
      user_ctx := getter }

/-- The operation `RpcServer::RegisterSetHandler<T>`. -/
def RegisterSetHandler (this_uri : List Char) (server : Server) (uri : List Char)
    (setter : Nat) : Int × Server :=
  httpd_register_uri_handler server
    { uri := endpoint this_uri uri, method := HTTP_PUT, handler := Adapter.HandleSet,
      user_ctx := setter }

/-- The operation `RpcServer::RegisterPropertyHandler<T>`: the GET
registration, then (`||` short-circuits) the PUT registration only when the
first returned `ESP_OK`; `ESP_FAIL` when either returned non-zero. -/
def RegisterPropertyHandler (this_uri : List Char) (server : Server) (uri : List Char)
    (getter setter : Nat) : Int × Server :=
  let (e1, server1) := RegisterGetHandler this_uri server uri getter
  if e1 ≠ 0 then (ESP_FAIL, server1)
  else
    let (e2, server2) := RegisterSetHandler this_uri server1 uri setter
    if e2 ≠ 0 then (ESP_FAIL, server2) else (ESP_OK, server2)

/-! ## Vocabulary of the specification -/

/-- The outcome the specification asks of a typed SET adapter, given what the
typed parser returned on the body: the setter is called exactly when parsing
succeeded, and then once with the parsed value; the status is set to 400
exactly when parsing failed or the setter returned a non-zero code, and is left
unset (default 200) otherwise; one empty body is sent. -/
def typedSetContract (parsed : Bool × Int) (setter : rpc_set_handler_t) (o : Outcome) : Prop :=
  (o.setter_calls = if parsed.1 = true then [parsed.2] else []) ∧
  (o.status = some HTTPD_400 ↔ (parsed.1 = false ∨ setter parsed.2 ≠ 0)) ∧
  (o.status = some HTTPD_400 ∨ o.status = none) ∧
  o.sent = [[]]

/-- The mathematical integer a decimal numeral denotes: an optional leading
`-`, then decimal digits read in base 10 (leading zeros change nothing). -/
def decimalValue (s : List Char) : Int :=
  let mag (ds : List Char) : Nat := ds.foldl (fun acc c => acc * 10 + (c.toNat - 48)) 0
  if s.head? = some '-' then -((mag s.tail : Nat) : Int) else ((mag s : Nat) : Int)

/-- The base-8 value of a string of octal digits, most significant digit
first. -/
def octalValue (o : List Char) : Nat :=
  o.foldl (fun acc c => acc * 8 + (c.toNat - 48)) 0

/-- An octal digit `0`-`7`. -/
def isOctalDigit (c : Char) : Bool := decide (48 ≤ c.toNat) && decide (c.toNat ≤ 55)

/-- The value of a hexadecimal digit `0`-`9`, `a`-`f`, `A`-`F`; `none` for any
other character. -/
def hexDigitValue (c : Char) : Option Nat :=
  if 48 ≤ c.toNat ∧ c.toNat ≤ 57 then some (c.toNat - 48)
  else if 97 ≤ c.toNat ∧ c.toNat ≤ 102 then some (c.toNat - 87)
  else if 65 ≤ c.toNat ∧ c.toNat ≤ 70 then some (c.toNat - 55)
  else none

/-- The base-16 value of a string of hexadecimal digits, most significant
digit first. -/
def hexValue (h : List Char) : Nat :=
  h.foldl (fun acc c => acc * 16 + (hexDigitValue c).getD 0) 0

/-! ## Theorems -/

/-- Quantifying over the indices from 2 onward is quantifying over the
members of the list without its first two elements. -/
theorem forall_from_two_iff (s : List Char) (P : Char → Prop) :
    (∀ i c, 2 ≤ i → s.get? i = some c → P c) ↔ ∀ c ∈ s.drop 2, P c := by
  constructor
  · intro h c hc
    obtain ⟨n, hn⟩ := List.mem_iff_get?.mp hc
    rw [List.get?_eq_getElem?, List.getElem?_drop] at hn
    exact h (2 + n) c (by omega) (by rw [List.get?_eq_getElem?]; exact hn)
  · intro h i c hi hc
    apply h c
    apply List.mem_iff_get?.mpr
    refine ⟨i - 2, ?_⟩
    rw [List.get?_eq_getElem?] at hc ⊢
    rw [List.getElem?_drop]
    have : 2 + (i - 2) = i := by omega
    rw [this]; exact hc

/-- C1: `isNumber(s)` is true exactly when the string `s` is non-empty, `s[0]`
is a decimal digit or `-`, `s[1]` (if present) is a decimal digit, `x` or `X`,
and every character from index 2 onward is alphanumeric; in particular
`isNumber("")` is false and `isNumber` is true of `"-"`, `"-5"`, `"0x1F"` and
`"12a"`. -/
theorem isNumber_iff_shape :
    (∀ string : List Char, isNumber string = true ↔
      (cstr string ≠ [] ∧
       (∀ c, (cstr string).get? 0 = some c → isdigit c = true ∨ c = '-') ∧
       (∀ c, (cstr string).get? 1 = some c → isdigit c = true ∨ c = 'x' ∨ c = 'X') ∧
       (∀ i c, 2 ≤ i → (cstr string).get? i = some c → isalnum c = true))) ∧
    isNumber "".toList = false ∧ isNumber "-".toList = true ∧
    isNumber "-5".toList = true ∧ isNumber "0x1F".toList = true ∧
    isNumber "12a".toList = true := by
  refine ⟨?_, by decide, by decide, by decide, by decide, by decide⟩
  intro string
  rw [forall_from_two_iff]
  unfold isNumber
  generalize cstr string = s
  match s with
  | [] => simp
  | [a] =>
    by_cases h1 : a = '-' <;> by_cases h2 : isdigit a = true <;> simp [h1, h2]
  | [a, b] =>
    by_cases h1 : a = '-' <;> by_cases h2 : isdigit a = true <;>
    by_cases h3 : isdigit b = true <;> by_cases h4 : b = 'x' <;>
    by_cases h5 : b = 'X' <;> simp [h1, h2, h3, h4, h5]
  | a :: b :: c :: t =>
    by_cases h1 : a = '-' <;> by_cases h2 : isdigit a = true <;>
    by_cases h3 : isdigit b = true <;> by_cases h4 : b = 'x' <;>
    by_cases h5 : b = 'X' <;> simp [h1, h2, h3, h4, h5]

/-- The result of `strtol` is a value of `long`. -/
theorem strtol_bounds (w : Nat) (s : List Char) :
    LONG_MIN w ≤ strtol w s ∧ strtol w s ≤ LONG_MAX w := by
  have hp : (1 : Int) ≤ 2 ^ (w - 1) := one_le_pow₀ (by norm_num)
  unfold strtol LONG_MIN LONG_MAX
  simp only []
  split <;> constructor <;> omega

/-- A `long` of at least 32 bits holds every value from `-2^31` to `2^31 - 1`. -/
theorem long_covers_int (w : Nat) (hw : 32 ≤ w) :
    LONG_MIN w ≤ -2147483648 ∧ 2147483647 ≤ LONG_MAX w := by
  have hp : (2 : Int) ^ 31 ≤ 2 ^ (w - 1) := pow_le_pow_right₀ (by norm_num) (by omega)
  unfold LONG_MIN LONG_MAX
  constructor <;> omega

/-- A conversion whose value lies strictly inside the range of a 32-bit
`long` gives the same value for every wider `long`. -/
theorem strtol_eq_of_inside (w : Nat) (hw : 32 ≤ w) (s : List Char)
    (h : LONG_MIN 32 < strtol 32 s ∧ strtol 32 s < LONG_MAX 32) :
    strtol w s = strtol 32 s := by
  have hb := long_covers_int w hw
  revert h
  unfold strtol
  simp only []
  have e1 : LONG_MIN 32 = -2147483648 := by decide
  have e2 : LONG_MAX 32 = 2147483647 := by decide
  rw [e1, e2]
  split <;> intro h <;> omega

/-- C2: each bounded-width parser succeeds exactly when `isNumber` accepts the
input and the value of the base-0 `strtol` conversion lies in the range of the
target type, and on success the output is that value; `TryParseShort("32767")`
gives `(true, 32767)`, `TryParseShort("32768")` and `TryParseUshort("-1")`
fail. -/
theorem TryParse_bounded_iff (w : Nat) (hw : 32 ≤ w) (s : List Char) (out : Int) :
    (((TryParseShort w s out).1 = true ↔
        (isNumber s = true ∧ -32768 ≤ strtol w s ∧ strtol w s ≤ 32767)) ∧
      ((TryParseShort w s out).1 = true → (TryParseShort w s out).2 = strtol w s)) ∧
    (((TryParseUshort w s out).1 = true ↔
        (isNumber s = true ∧ 0 ≤ strtol w s ∧ strtol w s ≤ 65535)) ∧
      ((TryParseUshort w s out).1 = true → (TryParseUshort w s out).2 = strtol w s)) ∧
    (((TryParseInt w s out).1 = true ↔
        (isNumber s = true ∧ INT_MIN ≤ strtol w s ∧ strtol w s ≤ INT_MAX)) ∧
      ((TryParseInt w s out).1 = true → (TryParseInt w s out).2 = strtol w s)) ∧
    (((TryParseUint w s out).1 = true ↔
        (isNumber s = true ∧ 0 ≤ strtol w s ∧ strtol w s ≤ UINT_MAX)) ∧
      ((TryParseUint w s out).1 = true → (TryParseUint w s out).2 = strtol w s)) ∧
    TryParseShort w "32767".toList out = (true, 32767) ∧
    (TryParseShort w "32768".toList out).1 = false ∧
    (TryParseUshort w "-1".toList out).1 = false := by
  have hb := strtol_bounds w s
  have hc := long_covers_int w hw
  have e1 : LONG_MIN 32 = -2147483648 := by decide
  have e2 : LONG_MAX 32 = 2147483647 := by decide
  refine ⟨?_, ?_, ?_, ?_, ?_, ?_, ?_⟩
  · unfold TryParseShort SHRT_MAX SHRT_MIN toShort
    by_cases hn : isNumber s = true
    · by_cases hr : strtol w s ≤ 32767 ∧ strtol w s ≥ -32768
      · simp only [hn, hr, if_true, and_self, true_and, true_iff, forall_const]
        omega
      · simp only [hn, hr, if_true, if_false, true_and, Bool.false_eq_true, false_iff,
          false_implies, and_true]
        omega
    · simp [hn]
  · unfold TryParseUshort USHRT_MAX toUshort
    by_cases hn : isNumber s = true
    · by_cases hr : strtol w s ≤ 65535 ∧ strtol w s ≥ 0
      · simp only [hn, hr, if_true, and_self, true_and, true_iff, forall_const]
        omega
      · simp only [hn, hr, if_true, if_false, true_and, Bool.false_eq_true, false_iff,
          false_implies, and_true]
        omega
    · simp [hn]
  · unfold TryParseInt INT_MAX INT_MIN toInt
    by_cases hn : isNumber s = true
    · by_cases hr : strtol w s ≤ 2147483647 ∧ strtol w s ≥ -2147483648
      · simp only [hn, hr, if_true, and_self, true_and, true_iff, forall_const]
        omega
      · simp only [hn, hr, if_true, if_false, true_and, Bool.false_eq_true, false_iff,
          false_implies, and_true]
        omega
    · simp [hn]
  · unfold TryParseUint toUint
    have hle : le_UINT_MAX w (strtol w s) = true ∧ strtol w s ≥ 0 ↔
        (0 ≤ strtol w s ∧ strtol w s ≤ UINT_MAX) := by
      unfold le_UINT_MAX UINT_MAX
      by_cases h32 : w ≤ 32
      · have : w = 32 := by omega
        subst this
        rw [e2] at hb
        simp only [h32, if_true, decide_eq_true_eq]
        norm_num
        omega
      · simp only [h32, if_false, decide_eq_true_eq]
        omega
    by_cases hn : isNumber s = true
    · by_cases hr : le_UINT_MAX w (strtol w s) = true ∧ strtol w s ≥ 0
      · have hr2 := hle.mp hr
        unfold UINT_MAX at hr2
        simp only [hn, hr, if_true, and_self, true_and, true_iff, forall_const]
        unfold UINT_MAX
        omega
      · have hr2 := fun h => hr (hle.mpr h)
        simp only [hn, hr, if_true, if_false, true_and, Bool.false_eq_true, false_iff,
          false_implies, and_true]
        exact hr2
    · simp [hn]
  · have h1 : strtol w "32767".toList = 32767 := by
      rw [strtol_eq_of_inside w hw _ (by decide)]; decide
    have h2 : isNumber "32767".toList = true := by decide
    unfold TryParseShort
    simp only [h1, h2]
    have h3 : ((32767 : Int) ≤ SHRT_MAX ∧ (32767 : Int) ≥ SHRT_MIN) := by decide
    have h4 : toShort 32767 = 32767 := by decide
    simp only [h3, h4, if_true, and_self]
  · have h1 : strtol w "32768".toList = 32768 := by
      rw [strtol_eq_of_inside w hw _ (by decide)]; decide
    unfold TryParseShort
    simp only [h1]
    split <;> simp [SHRT_MAX]
  · have h1 : strtol w "-1".toList = -1 := by
      rw [strtol_eq_of_inside w hw _ (by decide)]; decide
    unfold TryParseUshort
    simp only [h1]
    split <;> simp

/-- C7: when a typed parser returns failure, the output location holds the
value it held before the call. -/
theorem TryParse_failure_keeps_out (w : Nat) (s : List Char) (out : Int) :
    ((TryParseShort w s out).1 = false → (TryParseShort w s out).2 = out) ∧
    ((TryParseUshort w s out).1 = false → (TryParseUshort w s out).2 = out) ∧
    ((TryParseInt w s out).1 = false → (TryParseInt w s out).2 = out) ∧
    ((TryParseUint w s out).1 = false → (TryParseUint w s out).2 = out) ∧
    ((TryParseLong w s out).1 = false → (TryParseLong w s out).2 = out) ∧
    ((TryParseUlong w s out).1 = false → (TryParseUlong w s out).2 = out) := by
  refine ⟨?_, ?_, ?_, ?_, ?_, ?_⟩
  · unfold TryParseShort
    split
    · simp only []
      split <;> simp
    · simp
  · unfold TryParseUshort
    split
    · simp only []
      split <;> simp
    · simp
  · unfold TryParseInt
    split
    · simp only []
      split <;> simp
    · simp
  · unfold TryParseUint
    split
    · simp only []
      split <;> simp
    · simp
  · unfold TryParseLong
    split <;> simp
  · unfold TryParseUlong
    split <;> simp

/-! ### Decimal digits -/

/-- A string without NUL is the C string stored at its own start. -/
theorem cstr_eq_self (s : List Char) (h : ∀ c ∈ s, c ≠ NUL) : cstr s = s := by
  unfold cstr
  induction s with
  | nil => rfl
  | cons a t ih =>
    have ha : a ≠ NUL := h a (List.mem_cons_self a t)
    rw [List.takeWhile_cons]
    simp only [bne_iff_ne, ne_eq, ha, not_false_eq_true, if_true]
    rw [ih (fun c hc => h c (List.mem_cons_of_mem a hc))]

/-- What the program's character tests say of the ten decimal digit characters. -/
theorem digitChar_facts : ∀ d, d < 10 →
    (isdigit (Nat.digitChar d) = true ∧ digitOf (Nat.digitChar d) = some d ∧
     isspace (Nat.digitChar d) = false ∧ isalnum (Nat.digitChar d) = true ∧
     Nat.digitChar d ≠ NUL ∧ Nat.digitChar d ≠ '-' ∧ Nat.digitChar d ≠ '+' ∧
     Nat.digitChar d ≠ 'x' ∧ Nat.digitChar d ≠ 'X' ∧
     (Nat.digitChar d = '0' ↔ d = 0)) := by
  decide

/-- With enough fuel the digit generator of the standard library prepends the
digits of `n` to its accumulator. -/
theorem toDigitsCore_eq_append (n : Nat) : ∀ fuel ds, n < fuel →
    Nat.toDigitsCore 10 fuel n ds = Nat.toDigits 10 n ++ ds := by
  induction n using Nat.strong_induction_on with
  | _ n ih =>
    intro fuel ds hf
    obtain ⟨f, rfl⟩ : ∃ f, fuel = f + 1 := ⟨fuel - 1, by omega⟩
    unfold Nat.toDigits
    rw [Nat.toDigitsCore, Nat.toDigitsCore]
    by_cases h0 : n / 10 = 0
    · simp [h0]
    · have hlt : n / 10 < n := by omega
      simp only [h0, if_false]
      rw [ih (n / 10) hlt f _ (by omega), ih (n / 10) hlt n _ hlt]
      simp

/-- The decimal text of a number below ten is its digit. -/
theorem toDigits_small (n : Nat) (h : n < 10) : Nat.toDigits 10 n = [Nat.digitChar n] := by
  unfold Nat.toDigits
  rw [Nat.toDigitsCore]
  have h0 : n / 10 = 0 := by omega
  have h1 : n % 10 = n := by omega
  simp [h0, h1]

/-- The decimal text of a number from ten upwards is the text of its tenth
followed by its last digit. -/
theorem toDigits_step (n : Nat) (h : 10 ≤ n) :
    Nat.toDigits 10 n = Nat.toDigits 10 (n / 10) ++ [Nat.digitChar (n % 10)] := by
  have h0 : n / 10 ≠ 0 := by omega
  have hlt : n / 10 < n := by omega
  conv_lhs => unfold Nat.toDigits
  rw [Nat.toDigitsCore]
  simp only [h0, if_false]
  exact toDigitsCore_eq_append (n / 10) n _ hlt

/-- The decimal text of a number starts with a digit, which is not `0` unless
the number is zero, and consists of digits only. -/
theorem toDigits_shape (n : Nat) : ∃ d t, d < 10 ∧ Nat.toDigits 10 n = Nat.digitChar d :: t ∧
    (0 < n → 0 < d) ∧ (∀ c ∈ t, ∃ e, e < 10 ∧ c = Nat.digitChar e) := by
  induction n using Nat.strong_induction_on with
  | _ n ih =>
    by_cases h : n < 10
    · exact ⟨n, [], h, toDigits_small n h, fun hn => hn, by simp⟩
    · obtain ⟨d, t, hd, heq, hpos, hall⟩ := ih (n / 10) (by omega)
      refine ⟨d, t ++ [Nat.digitChar (n % 10)], hd, ?_, fun _ => hpos (by omega), ?_⟩
      · rw [toDigits_step n (by omega), heq]; rfl
      · intro c hc
        rcases List.mem_append.mp hc with hc | hc
        · exact hall c hc
        · exact ⟨n % 10, by omega, by simpa using hc⟩

/-- Every character of a decimal text is one of the ten digit characters. -/
theorem toDigits_all_digitChar (n : Nat) :
    ∀ c ∈ Nat.toDigits 10 n, ∃ e, e < 10 ∧ c = Nat.digitChar e := by
  obtain ⟨d, t, hd, heq, _, hall⟩ := toDigits_shape n
  intro c hc
  rw [heq] at hc
  rcases List.mem_cons.mp hc with hc | hc
  · exact ⟨d, hd, hc⟩
  · exact hall c hc

/-- The digit loop in base 10 runs through a prefix of decimal digits. -/
theorem accumulate_digits_append (xs ys : List Char)
    (h : ∀ c ∈ xs, ∃ e, e < 10 ∧ c = Nat.digitChar e) (acc : Nat) :
    accumulate 10 (xs ++ ys) acc = accumulate 10 ys (accumulate 10 xs acc) := by
  induction xs generalizing acc with
  | nil => rfl
  | cons a t ih =>
    obtain ⟨e, he, rfl⟩ := h _ (List.mem_cons_self _ t)
    have hf := (digitChar_facts e he).2.1
    simp only [List.cons_append, accumulate, hf, he, if_true]
    exact ih (fun c hc => h c (List.mem_cons_of_mem _ hc)) _

/-- The digit loop in base 10 reads the decimal text of `n` back as `n`. -/
theorem accumulate_toDigits (n : Nat) : accumulate 10 (Nat.toDigits 10 n) 0 = n := by
  induction n using Nat.strong_induction_on with
  | _ n ih =>
    by_cases h : n < 10
    · rw [toDigits_small n h]
      simp [accumulate, (digitChar_facts n h).2.1, h]
    · rw [toDigits_step n (by omega),
        accumulate_digits_append _ _ (toDigits_all_digitChar (n / 10)), ih (n / 10) (by omega)]
      have hm : n % 10 < 10 := by omega
      simp only [accumulate, (digitChar_facts (n % 10) hm).2.1, hm, if_true]
      omega

/-- A decimal digit is neither white space nor a sign. -/
theorem isdigit_not_space_sign (c : Char) (h : isdigit c = true) :
    isspace c = false ∧ c ≠ '-' ∧ c ≠ '+' ∧ c ≠ NUL := by
  refine ⟨?_, ?_, ?_, ?_⟩
  · unfold isdigit at h
    unfold isspace
    simp only [Bool.and_eq_true, decide_eq_true_eq] at h
    simp only [Bool.or_eq_false_iff, Bool.and_eq_false_iff, decide_eq_false_iff_not]
    omega
  · rintro rfl; exact absurd h (by decide)
  · rintro rfl; exact absurd h (by decide)
  · rintro rfl; exact absurd h (by decide)

/-- On a string that starts with a decimal digit other than `0`, `strtol`
converts in base 10. -/
theorem strtol_decimal (w : Nat) (c : Char) (t : List Char)
    (hcs : cstr (c :: t) = c :: t) (hd : isdigit c = true) (h0 : c ≠ '0') :
    strtol w (c :: t) = min ((accumulate 10 (c :: t) 0 : Nat) : Int) (LONG_MAX w) := by
  obtain ⟨h1, h2, h3, _⟩ := isdigit_not_space_sign c hd
  unfold strtol
  rw [hcs]
  simp [List.dropWhile_cons, h1, h2, h3, h0]

/-- On `-` followed by a string that starts with a decimal digit other than
`0`, `strtol` converts in base 10 and negates. -/
theorem strtol_neg_decimal (w : Nat) (c : Char) (t : List Char)
    (hcs : cstr ('-' :: c :: t) = '-' :: c :: t) (h0 : c ≠ '0') :
    strtol w ('-' :: c :: t) =
      max (-((accumulate 10 (c :: t) 0 : Nat) : Int)) (LONG_MIN w) := by
  have hsp : isspace '-' = false := by decide
  unfold strtol
  rw [hcs]
  simp [List.dropWhile_cons, hsp, h0]

/-- The validator accepts a digit or `-` followed by digits only. -/
theorem isNumber_of_digit_tail (a : Char) (t : List Char) (hcs : cstr (a :: t) = a :: t)
    (ha : a = '-' ∨ isdigit a = true) (ht : ∀ c ∈ t, isdigit c = true) :
    isNumber (a :: t) = true := by
  have hal : ∀ c ∈ t, isalnum c = true := fun c hc => by
    unfold isalnum; rw [ht c hc]; rfl
  unfold isNumber
  rw [hcs]
  match t, ht, hal with
  | [], _, _ => rcases ha with rfl | ha <;> simp [*]
  | [b], ht, _ =>
    have hb := ht b (by simp)
    rcases ha with rfl | ha <;> simp [*]
  | b :: c :: u, ht, hal =>
    have hb := ht b (by simp)
    have hu : ∀ x ∈ c :: u, isalnum x = true := fun x hx => hal x (List.mem_cons_of_mem _ hx)
    simp only [List.mem_cons, forall_eq_or_imp] at hu
    obtain ⟨hu1, hu2⟩ := hu
    rcases ha with rfl | ha
    · simp [hb, hu1]; exact hu2
    · simp [hb, hu1, ha]; exact hu2

/-- The decimal text of an integer: its shape, and that it is a C string. -/
theorem decimal_text_shape (v : Int) :
    cstr (decimal_text v) = decimal_text v ∧
    ∃ d t, d < 10 ∧ (0 < v.natAbs → 0 < d) ∧ (∀ c ∈ t, ∃ e, e < 10 ∧ c = Nat.digitChar e) ∧
      Nat.toDigits 10 v.natAbs = Nat.digitChar d :: t ∧
      decimal_text v = if v < 0 then '-' :: Nat.digitChar d :: t else Nat.digitChar d :: t := by
  obtain ⟨d, t, hd, heq, hpos, hall⟩ := toDigits_shape v.natAbs
  have hnn : ∀ c ∈ Nat.toDigits 10 v.natAbs, c ≠ NUL := fun c hc => by
    obtain ⟨e, he, rfl⟩ := toDigits_all_digitChar _ c hc
    exact (digitChar_facts e he).2.2.2.2.1
  refine ⟨?_, d, t, hd, hpos, hall, heq, ?_⟩
  · apply cstr_eq_self
    unfold decimal_text
    split
    · intro c hc
      rcases List.mem_cons.mp hc with rfl | hc
      · decide
      · exact hnn c hc
    · exact hnn
  · unfold decimal_text
    rw [heq]

/-- The validator accepts the decimal text of every integer. -/
theorem isNumber_decimal_text (v : Int) : isNumber (decimal_text v) = true := by
  obtain ⟨hcs, d, t, hd, _, hall, _, heq⟩ := decimal_text_shape v
  have hdig : ∀ c ∈ Nat.digitChar d :: t, isdigit c = true := by
    intro c hc
    rcases List.mem_cons.mp hc with rfl | hc
    · exact (digitChar_facts d hd).1
    · obtain ⟨e, he, rfl⟩ := hall c hc
      exact (digitChar_facts e he).1
  rw [heq] at hcs ⊢
  split at hcs
  · rw [if_pos (by assumption)]
    exact isNumber_of_digit_tail _ _ hcs (Or.inl rfl) hdig
  · rw [if_neg (by assumption)]
    exact isNumber_of_digit_tail _ _ hcs (Or.inr (hdig _ (List.mem_cons_self _ _)))
      (fun c hc => hdig c (List.mem_cons_of_mem _ hc))

/-- On the decimal text of an integer `strtol` gives the integer, or the end
of the range of `long` beyond which the integer lies. -/
theorem strtol_decimal_text (w : Nat) (v : Int) :
    strtol w (decimal_text v) = if v < 0 then max v (LONG_MIN w) else min v (LONG_MAX w) := by
  obtain ⟨hcs, d, t, hd, hpos, _, hdig, heq⟩ := decimal_text_shape v
  have hacc := accumulate_toDigits v.natAbs
  rw [hdig] at hacc
  rw [heq] at hcs ⊢
  by_cases hneg : v < 0
  · simp only [hneg, if_true] at hcs ⊢
    have hd0 : Nat.digitChar d ≠ '0' := fun h =>
      absurd ((digitChar_facts d hd).2.2.2.2.2.2.2.2.2.mp h) (by have := hpos (by omega); omega)
    rw [strtol_neg_decimal w _ _ hcs hd0, hacc]
    have : ((v.natAbs : Nat) : Int) = -v := by omega
    rw [this, neg_neg]
  · simp only [hneg, if_false] at hcs ⊢
    by_cases hz : v = 0
    · subst hz
      have hd0 : d = 0 := by
        have h1 := toDigits_small 0 (by decide)
        rw [show (0 : Int).natAbs = 0 from rfl] at hdig
        rw [hdig] at h1
        have h2 := (List.cons.inj h1).1
        exact (digitChar_facts d hd).2.2.2.2.2.2.2.2.2.mp h2
      have ht : t = [] := by
        have h1 := toDigits_small 0 (by decide)
        rw [show (0 : Int).natAbs = 0 from rfl] at hdig
        rw [hdig] at h1
        exact (List.cons.inj h1).2
      subst hd0; subst ht
      have e : strtol w [Nat.digitChar 0] = min 0 (LONG_MAX w) := by
        unfold strtol
        rfl
      rw [e]
    · have hd0 : Nat.digitChar d ≠ '0' := fun h =>
        absurd ((digitChar_facts d hd).2.2.2.2.2.2.2.2.2.mp h) (by have := hpos (by omega); omega)
      rw [strtol_decimal w _ _ hcs (digitChar_facts d hd).1 hd0, hacc]
      have : ((v.natAbs : Nat) : Int) = v := by omega
      rw [this]

/-- Witness of C2: the three inputs the specification names, for a 32-bit `long`. -/
theorem TryParse_bounded_iff_witness :
    TryParseShort 32 "32767".toList 0 = (true, 32767) ∧
    (TryParseShort 32 "32768".toList 0).1 = false ∧
    (TryParseUshort 32 "-1".toList 0).1 = false :=
  (TryParse_bounded_iff 32 (by decide) [] 0).2.2.2.2

/-- C3: for every value `v` representable in `short`, `ushort`, `int` or a
`long` of at least 32 bits, the parser of that type applied to the canonical
decimal text of `v` returns success with output exactly `v`. -/
theorem roundtrip_signed_and_ushort (w : Nat) (hw : 32 ≤ w) (v out : Int) :
    ((SHRT_MIN ≤ v ∧ v ≤ SHRT_MAX) → TryParseShort w (decimal_text v) out = (true, v)) ∧
    ((0 ≤ v ∧ v ≤ USHRT_MAX) → TryParseUshort w (decimal_text v) out = (true, v)) ∧
    ((INT_MIN ≤ v ∧ v ≤ INT_MAX) → TryParseInt w (decimal_text v) out = (true, v)) ∧
    ((LONG_MIN w ≤ v ∧ v ≤ LONG_MAX w) → TryParseLong w (decimal_text v) out = (true, v)) := by
  have hc := long_covers_int w hw
  have hn := isNumber_decimal_text v
  have hs := strtol_decimal_text w v
  refine ⟨?_, ?_, ?_, ?_⟩
  · unfold SHRT_MIN SHRT_MAX
    intro hr
    have hv : strtol w (decimal_text v) = v := by rw [hs]; split <;> omega
    unfold TryParseShort
    simp only [hn, hv, if_true, SHRT_MIN, SHRT_MAX, toShort]
    rw [if_pos (by omega)]
    congr 1
    omega
  · unfold USHRT_MAX
    intro hr
    have hv : strtol w (decimal_text v) = v := by rw [hs]; split <;> omega
    unfold TryParseUshort
    simp only [hn, hv, if_true, USHRT_MAX, toUshort]
    rw [if_pos (by omega)]
    congr 1
    omega
  · unfold INT_MIN INT_MAX
    intro hr
    have hv : strtol w (decimal_text v) = v := by rw [hs]; split <;> omega
    unfold TryParseInt
    simp only [hn, hv, if_true, INT_MIN, INT_MAX, toInt]
    rw [if_pos (by omega)]
    congr 1
    omega
  · intro hr
    have hv : strtol w (decimal_text v) = v := by rw [hs]; split <;> omega
    unfold TryParseLong
    simp only [hn, hv, if_true]

/-- Witness of C3: the round trip at the smallest `short`, for a 32-bit `long`. -/
theorem roundtrip_signed_and_ushort_witness :
    TryParseShort 32 (decimal_text (-32768)) 0 = (true, -32768) :=
  (roundtrip_signed_and_ushort 32 (by decide) (-32768) 0).1 (by decide)

/-- C4, the code at the failing inputs: with a 32-bit `long` the text of
`UINT_MAX` parses to `LONG_MAX` both as `uint` and as `ulong`, and with a
64-bit `long` the text of `ULONG_MAX` parses to `LONG_MAX`; each time the
parser reports success. -/
theorem wide_unsigned_roundtrip_fails :
    decimal_text 4294967295 = "4294967295".toList ∧
    TryParseUint 32 (decimal_text 4294967295) 0 = (true, 2147483647) ∧
    TryParseUlong 32 (decimal_text 4294967295) 0 = (true, 2147483647) ∧
    TryParseUlong 64 (decimal_text 18446744073709551615) 0 = (true, 9223372036854775807) := by
  decide

/-- A `long` of at least 64 bits holds every value from `-2^63` to `2^63 - 1`. -/
theorem long_covers_64 (w : Nat) (hw : 64 ≤ w) :
    LONG_MIN w ≤ -9223372036854775808 ∧ 9223372036854775807 ≤ LONG_MAX w := by
  have hp : (2 : Int) ^ 63 ≤ 2 ^ (w - 1) := pow_le_pow_right₀ (by norm_num) (by omega)
  unfold LONG_MIN LONG_MAX
  constructor <;> omega

/-- The parser `TryParseShort` on the decimal text of any integer. -/
theorem TryParseShort_decimal_text (w : Nat) (hw : 32 ≤ w) (v out : Int) :
    TryParseShort w (decimal_text v) out =
      if SHRT_MIN ≤ v ∧ v ≤ SHRT_MAX then (true, v) else (false, out) := by
  have hc := long_covers_int w hw
  unfold TryParseShort
  simp only [isNumber_decimal_text v, strtol_decimal_text w v, if_true, SHRT_MIN, SHRT_MAX,
    toShort]
  by_cases hr : (-32768 : Int) ≤ v ∧ v ≤ 32767
  · rw [if_pos hr, if_pos (by split <;> omega)]
    congr 1
    split <;> omega
  · rw [if_neg hr, if_neg (by split <;> omega)]

/-- The parser `TryParseUshort` on the decimal text of any integer. -/
theorem TryParseUshort_decimal_text (w : Nat) (hw : 32 ≤ w) (v out : Int) :
    TryParseUshort w (decimal_text v) out =
      if 0 ≤ v ∧ v ≤ USHRT_MAX then (true, v) else (false, out) := by
  have hc := long_covers_int w hw
  unfold TryParseUshort
  simp only [isNumber_decimal_text v, strtol_decimal_text w v, if_true, USHRT_MAX, toUshort]
  by_cases hr : (0 : Int) ≤ v ∧ v ≤ 65535
  · rw [if_pos hr, if_pos (by split <;> omega)]
    congr 1
    split <;> omega
  · rw [if_neg hr, if_neg (by split <;> omega)]

/-- The parser `TryParseInt` on the decimal text of any integer, when `long`
has at least 64 bits. -/
theorem TryParseInt_decimal_text (w : Nat) (hw : 64 ≤ w) (v out : Int) :
    TryParseInt w (decimal_text v) out =
      if INT_MIN ≤ v ∧ v ≤ INT_MAX then (true, v) else (false, out) := by
  have hc := long_covers_64 w hw
  unfold TryParseInt
  simp only [isNumber_decimal_text v, strtol_decimal_text w v, if_true, INT_MIN, INT_MAX, toInt]
  by_cases hr : (-2147483648 : Int) ≤ v ∧ v ≤ 2147483647
  · rw [if_pos hr, if_pos (by split <;> omega)]
    congr 1
    split <;> omega
  · rw [if_neg hr, if_neg (by split <;> omega)]

/-- The parser `TryParseUint` on the decimal text of any integer, when `long`
has at least 64 bits. -/
theorem TryParseUint_decimal_text (w : Nat) (hw : 64 ≤ w) (v out : Int) :
    TryParseUint w (decimal_text v) out =
      if 0 ≤ v ∧ v ≤ UINT_MAX then (true, v) else (false, out) := by
  have hc := long_covers_64 w hw
  have h32 : ¬ w ≤ 32 := by omega
  unfold TryParseUint le_UINT_MAX
  simp only [isNumber_decimal_text v, strtol_decimal_text w v, if_true, UINT_MAX, toUint, h32,
    if_false, decide_eq_true_eq]
  by_cases hr : (0 : Int) ≤ v ∧ v ≤ 4294967295
  · rw [if_pos hr, if_pos (by split <;> omega)]
    congr 1
    split <;> omega
  · rw [if_neg hr, if_neg (by split <;> omega)]

/-- C5 as stated fails: the numeral `040000` denotes 40000, which is not a
`short`, and `TryParseShort` succeeds on it with 16384 (the leading zero
selects base 8); with a 32-bit `long` the numeral `2147483648` denotes a value
that is not an `int`, and `TryParseInt` succeeds on it with 2147483647. -/
theorem out_of_range_numeral_accepted :
    (decimalValue "040000".toList = 40000 ∧ SHRT_MAX < 40000 ∧
      TryParseShort 32 "040000".toList 0 = (true, 16384)) ∧
    (decimalValue "2147483648".toList = 2147483648 ∧ INT_MAX < 2147483648 ∧
      TryParseInt 32 "2147483648".toList 0 = (true, 2147483647)) := by
  decide

/-- C5, amended: on the canonical decimal text (no leading zeros) of an integer
outside the range of the target type, `TryParseShort` and `TryParseUshort`
return failure for every `long` of at least 32 bits, and `TryParseInt` and
`TryParseUint` return failure when `long` has at least 64 bits; under the same
conditions a success on the decimal text of `v` carries exactly `v`. -/
theorem out_of_range_decimal_text_fails (w : Nat) (hw : 32 ≤ w) (v out : Int) :
    (((v < SHRT_MIN ∨ SHRT_MAX < v) → (TryParseShort w (decimal_text v) out).1 = false) ∧
     ((v < 0 ∨ USHRT_MAX < v) → (TryParseUshort w (decimal_text v) out).1 = false) ∧
     (64 ≤ w → (v < INT_MIN ∨ INT_MAX < v) → (TryParseInt w (decimal_text v) out).1 = false) ∧
     (64 ≤ w → (v < 0 ∨ UINT_MAX < v) → (TryParseUint w (decimal_text v) out).1 = false)) ∧
    (((TryParseShort w (decimal_text v) out).1 = true →
        (TryParseShort w (decimal_text v) out).2 = v) ∧
     ((TryParseUshort w (decimal_text v) out).1 = true →
        (TryParseUshort w (decimal_text v) out).2 = v) ∧
     (64 ≤ w → (TryParseInt w (decimal_text v) out).1 = true →
        (TryParseInt w (decimal_text v) out).2 = v) ∧
     (64 ≤ w → (TryParseUint w (decimal_text v) out).1 = true →
        (TryParseUint w (decimal_text v) out).2 = v)) := by
  refine ⟨⟨?_, ?_, ?_, ?_⟩, ?_, ?_, ?_, ?_⟩
  · intro h
    rw [TryParseShort_decimal_text w hw, if_neg (by omega)]
  · intro h
    rw [TryParseUshort_decimal_text w hw, if_neg (by omega)]
  · intro h64 h
    rw [TryParseInt_decimal_text w h64, if_neg (by omega)]
  · intro h64 h
    rw [TryParseUint_decimal_text w h64, if_neg (by omega)]
  · rw [TryParseShort_decimal_text w hw]
    split <;> simp
  · rw [TryParseUshort_decimal_text w hw]
    split <;> simp
  · intro h64
    rw [TryParseInt_decimal_text w h64]
    split <;> simp
  · intro h64
    rw [TryParseUint_decimal_text w h64]
    split <;> simp

/-- Witness of the amended C5: with a 64-bit `long`, `TryParseInt` fails on the
decimal text of `INT_MAX + 1`. -/
theorem out_of_range_decimal_text_fails_witness :
    (TryParseInt 64 (decimal_text 2147483648) 0).1 = false :=
  (out_of_range_decimal_text_fails 64 (by decide) 2147483648 0).1.2.2.1 (by decide)
    (Or.inr (by decide))

/-! ### Hexadecimal digits -/

/-- What the program's character tests say of a hexadecimal digit. -/
theorem hexDigit_facts (c : Char) (d : Nat) (h : hexDigitValue c = some d) :
    digitOf c = some d ∧ d < 16 ∧ isalnum c = true ∧ c ≠ NUL := by
  have hnul : c ≠ NUL := by
    rintro rfl
    have : hexDigitValue NUL = none := by decide
    rw [this] at h
    exact absurd h (by simp)
  have key : (48 ≤ c.toNat ∧ c.toNat ≤ 57 ∧ d = c.toNat - 48) ∨
      (97 ≤ c.toNat ∧ c.toNat ≤ 102 ∧ d = c.toNat - 87) ∨
      (65 ≤ c.toNat ∧ c.toNat ≤ 70 ∧ d = c.toNat - 55) := by
    unfold hexDigitValue at h
    split_ifs at h with h1 h2 h3 <;> simp only [Option.some.injEq] at h <;> omega
  refine ⟨?_, ?_, ?_, hnul⟩
  · simp only [digitOf, isdigit, isupper, islower, Bool.and_eq_true, decide_eq_true_eq]
    split_ifs <;> first | (exfalso; omega) | (simp only [Option.some.injEq]; omega)
  · omega
  · simp only [isalnum, isdigit, isupper, islower, Bool.and_eq_true, Bool.or_eq_true,
      decide_eq_true_eq]
    omega

/-- The digit loop in base 16 on a string of hexadecimal digits computes its
base-16 value. -/
theorem accumulate_hex (h : List Char) (hh : ∀ c ∈ h, (hexDigitValue c).isSome = true)
    (acc : Nat) :
    accumulate 16 h acc = h.foldl (fun acc c => acc * 16 + (hexDigitValue c).getD 0) acc := by
  induction h generalizing acc with
  | nil => rfl
  | cons a t ih =>
    obtain ⟨d, hd⟩ := Option.isSome_iff_exists.mp (hh a (List.mem_cons_self a t))
    obtain ⟨h1, h2, _, _⟩ := hexDigit_facts a d hd
    simp only [accumulate, h1, h2, if_true, List.foldl_cons, hd, Option.getD_some]
    exact ih (fun c hc => hh c (List.mem_cons_of_mem a hc)) _

/-- On `0x` or `0X` followed by a non-empty string of hexadecimal digits the
validator accepts and `strtol` converts the digits in base 16. -/
theorem hex_text (w : Nat) (x : Char) (hx : x = 'x' ∨ x = 'X') (h : List Char) (hne : h ≠ [])
    (hh : ∀ c ∈ h, (hexDigitValue c).isSome = true) :
    isNumber ('0' :: x :: h) = true ∧
    strtol w ('0' :: x :: h) = min ((hexValue h : Nat) : Int) (LONG_MAX w) := by
  have hfacts : ∀ c ∈ h, isalnum c = true ∧ c ≠ NUL ∧ isxdigit c = true := by
    intro c hc
    obtain ⟨d, hd⟩ := Option.isSome_iff_exists.mp (hh c hc)
    obtain ⟨h1, h2, h3, h4⟩ := hexDigit_facts c d hd
    refine ⟨h3, h4, ?_⟩
    unfold isxdigit
    rw [h1]
    simpa using h2
  have hcs : cstr ('0' :: x :: h) = '0' :: x :: h := by
    apply cstr_eq_self
    intro c hc
    rcases List.mem_cons.mp hc with rfl | hc
    · decide
    · rcases List.mem_cons.mp hc with rfl | hc
      · rcases hx with rfl | rfl <;> decide
      · exact (hfacts c hc).2.1
  obtain ⟨a, t, rfl⟩ : ∃ a t, h = a :: t := by
    cases h with
    | nil => exact absurd rfl hne
    | cons a t => exact ⟨a, t, rfl⟩
  have ha := hfacts a (List.mem_cons_self a t)
  have hsp : isspace '0' = false := by decide
  constructor
  · unfold isNumber
    rw [hcs]
    have hall : ∀ c ∈ t, isalnum c = true := fun c hc => (hfacts c (List.mem_cons_of_mem a hc)).1
    have h0 : isdigit '0' = true := by decide
    rcases hx with rfl | rfl <;> simp [ha.1, h0] <;> exact hall
  · unfold strtol hexValue
    rw [hcs, ← accumulate_hex _ hh 0]
    rcases hx with rfl | rfl <;> simp [List.dropWhile_cons, hsp, ha.2.2]

/-- C6: for every non-empty string `h` of hexadecimal digits whose base-16
value `n` is at most `INT_MAX`, `TryParseInt` returns success with output `n`
on `"0x" ++ h` and on `"0X" ++ h`. -/
theorem TryParseInt_hex (w : Nat) (hw : 32 ≤ w) (h : List Char) (out : Int) (hne : h ≠ [])
    (hh : ∀ c ∈ h, (hexDigitValue c).isSome = true) (hn : (hexValue h : Int) ≤ INT_MAX) :
    TryParseInt w ("0x".toList ++ h) out = (true, (hexValue h : Int)) ∧
    TryParseInt w ("0X".toList ++ h) out = (true, (hexValue h : Int)) := by
  have hc := long_covers_int w hw
  unfold INT_MAX at hn
  constructor
  · obtain ⟨h1, h2⟩ := hex_text w 'x' (Or.inl rfl) h hne hh
    show TryParseInt w ('0' :: 'x' :: h) out = _
    unfold TryParseInt
    simp only [h1, h2, if_true, INT_MAX, INT_MIN, toInt]
    rw [if_pos (by omega)]
    congr 1
    omega
  · obtain ⟨h1, h2⟩ := hex_text w 'X' (Or.inr rfl) h hne hh
    show TryParseInt w ('0' :: 'X' :: h) out = _
    unfold TryParseInt
    simp only [h1, h2, if_true, INT_MAX, INT_MIN, toInt]
    rw [if_pos (by omega)]
    congr 1
    omega

/-- Witness of C6: `TryParseInt("0x10")` is `(true, 16)`, for a 32-bit `long`. -/
theorem TryParseInt_hex_witness :
    hexValue "10".toList = 16 ∧ TryParseInt 32 "0x10".toList 0 = (true, 16) :=
  ⟨by decide, (TryParseInt_hex 32 (by decide) "10".toList 0 (by decide) (by decide)
    (by decide)).1⟩

/-! ### Dispatch adapters -/

/-- Terminating a buffer does not change the C string stored in it. -/
theorem cstr_append_NUL (l : List Char) : cstr (l ++ [NUL]) = cstr l := by
  unfold cstr
  induction l with
  | nil => simp [List.takeWhile_cons]
  | cons a t ih =>
    rw [List.cons_append, List.takeWhile_cons, List.takeWhile_cons, ih]

/-- The validator and `strtol` read the received bytes out of the terminated
buffer. -/
theorem terminated_buffer (w : Nat) (l : List Char) :
    isNumber (l ++ [NUL]) = isNumber l ∧ strtol w (l ++ [NUL]) = strtol w l := by
  unfold isNumber strtol
  rw [cstr_append_NUL]
  exact ⟨rfl, rfl⟩

/-- The shared body of the numeric SET adapters meets the contract for
whatever its parser returned on the terminated buffer, provided the conversion
to the setter's parameter type leaves a successfully parsed value alone. -/
theorem HandleSetNumeric_contract (TryParse : List Char → Int → Bool × Int) (conv : Int → Int)
    (req : Request) (setter : rpc_set_handler_t) (val0 : Int)
    (hconv : (TryParse (req.content.take 16 ++ [NUL]) val0).1 = true →
      conv (TryParse (req.content.take 16 ++ [NUL]) val0).2 =
        (TryParse (req.content.take 16 ++ [NUL]) val0).2) :
    typedSetContract (TryParse (req.content.take 16 ++ [NUL]) val0) setter
      (HandleSetNumeric TryParse conv req setter val0) := by
  unfold typedSetContract HandleSetNumeric httpd_req_recv
  dsimp only
  generalize TryParse (req.content.take 16 ++ [NUL]) val0 = p at hconv ⊢
  obtain ⟨ok, val⟩ := p
  cases ok with
  | false => simp
  | true =>
    have hv : conv val = val := hconv rfl
    simp only [hv]
    by_cases hs : setter val = 0 <;> simp [hs]

/-- The typed parsers read the received bytes out of the terminated buffer. -/
theorem TryParse_terminated (w : Nat) (l : List Char) (out : Int) :
    TryParseShort w (l ++ [NUL]) out = TryParseShort w l out ∧
    TryParseUshort w (l ++ [NUL]) out = TryParseUshort w l out ∧
    TryParseInt w (l ++ [NUL]) out = TryParseInt w l out ∧
    TryParseUint w (l ++ [NUL]) out = TryParseUint w l out ∧
    TryParseLong w (l ++ [NUL]) out = TryParseLong w l out ∧
    TryParseUlong w (l ++ [NUL]) out = TryParseUlong w l out := by
  obtain ⟨h1, h2⟩ := terminated_buffer w l
  unfold TryParseShort TryParseUshort TryParseInt TryParseUint TryParseLong TryParseUlong
  rw [h1, h2]
  exact ⟨rfl, rfl, rfl, rfl, rfl, rfl⟩

/-- The conversions to the fixed-width types leave a converted value alone. -/
theorem conversions_idempotent (x : Int) :
    toShort (toShort x) = toShort x ∧ toUshort (toUshort x) = toUshort x ∧
    toInt (toInt x) = toInt x ∧ toUint (toUint x) = toUint x := by
  unfold toShort toUshort toInt toUint
  refine ⟨?_, ?_, ?_, ?_⟩ <;> omega

/-- C8: each of the `short`, `ushort`, `int` and `uint` SET adapters parses the
first at most 16 bytes of the body with the matching typed parser, calls the
setter exactly when parsing succeeds and then with the parsed value, sets
status 400 exactly when parsing fails or the setter returns non-zero and
otherwise leaves the default, and always sends an empty body; for `ushort`,
body `70000` gives status 400 and no setter call, body `100` has the setter
called with 100 and, the setter accepting, leaves the default status. -/
theorem HandleSet_outcome (w : Nat) (hw : 32 ≤ w) (req : Request) (setter : rpc_set_handler_t)
    (val0 : Int) :
    typedSetContract (TryParseShort w (req.content.take 16) val0) setter
      (HandleSet_short w req setter val0) ∧
    typedSetContract (TryParseUshort w (req.content.take 16) val0) setter
      (HandleSet_ushort w req setter val0) ∧
    typedSetContract (TryParseInt w (req.content.take 16) val0) setter
      (HandleSet_int w req setter val0) ∧
    typedSetContract (TryParseUint w (req.content.take 16) val0) setter
      (HandleSet_uint w req setter val0) ∧
    ((HandleSet_ushort w ⟨req.query, "70000".toList, req.send_result⟩ setter val0).status
        = some HTTPD_400 ∧
      (HandleSet_ushort w ⟨req.query, "70000".toList, req.send_result⟩ setter val0).setter_calls
        = []) ∧
    ((HandleSet_ushort w ⟨req.query, "100".toList, req.send_result⟩ setter val0).setter_calls
        = [100] ∧
      (setter 100 = 0 →
        (HandleSet_ushort w ⟨req.query, "100".toList, req.send_result⟩ setter val0).status
          = none)) := by
  have key : ∀ r : Request,
      typedSetContract (TryParseUshort w (r.content.take 16) val0) setter
        (HandleSet_ushort w r setter val0) := by
    intro r
    rw [← (TryParse_terminated w _ val0).2.1]
    apply HandleSetNumeric_contract
    unfold TryParseUshort
    split
    · dsimp only
      split
      · intro _; exact (conversions_idempotent _).2.1
      · intro h; exact absurd h (by simp)
    · intro h; exact absurd h (by simp)
  refine ⟨?_, key req, ?_, ?_, ?_, ?_⟩
  · rw [← (TryParse_terminated w _ val0).1]
    apply HandleSetNumeric_contract
    unfold TryParseShort
    split
    · dsimp only
      split
      · intro _; exact (conversions_idempotent _).1
      · intro h; exact absurd h (by simp)
    · intro h; exact absurd h (by simp)
  · rw [← (TryParse_terminated w _ val0).2.2.1]
    apply HandleSetNumeric_contract
    unfold TryParseInt
    split
    · dsimp only
      split
      · intro _; exact (conversions_idempotent _).2.2.1
      · intro h; exact absurd h (by simp)
    · intro h; exact absurd h (by simp)
  · rw [← (TryParse_terminated w _ val0).2.2.2.1]
    apply HandleSetNumeric_contract
    unfold TryParseUint
    split
    · dsimp only
      split
      · intro _; exact (conversions_idempotent _).2.2.2
      · intro h; exact absurd h (by simp)
    · intro h; exact absurd h (by simp)
  · have hk := key ⟨req.query, "70000".toList, req.send_result⟩
    have hp : TryParseUshort w (List.take 16 "70000".toList) val0 = (false, val0) := by
      have h1 : strtol w "70000".toList = 70000 := by
        rw [strtol_eq_of_inside w hw _ (by decide)]; decide
      have h2 : List.take 16 "70000".toList = "70000".toList := by decide
      rw [h2]
      unfold TryParseUshort
      simp only [h1]
      split <;> simp [USHRT_MAX]
    unfold typedSetContract at hk
    dsimp only at hk
    rw [hp] at hk
    obtain ⟨hk1, hk2, _, _⟩ := hk
    exact ⟨hk2.mpr (Or.inl rfl), by simpa using hk1⟩
  · have hk := key ⟨req.query, "100".toList, req.send_result⟩
    have hp : TryParseUshort w (List.take 16 "100".toList) val0 = (true, 100) := by
      have h1 : strtol w "100".toList = 100 := by
        rw [strtol_eq_of_inside w hw _ (by decide)]; decide
      have h2 : List.take 16 "100".toList = "100".toList := by decide
      have h3 : isNumber "100".toList = true := by decide
      rw [h2]
      unfold TryParseUshort
      simp only [h1, h3]
      have h4 : ((100 : Int) ≤ USHRT_MAX ∧ (100 : Int) ≥ 0) := by decide
      have h5 : toUshort 100 = 100 := by decide
      simp only [h4, h5, if_true, and_self]
    unfold typedSetContract at hk
    dsimp only at hk
    rw [hp] at hk
    obtain ⟨hk1, hk2, hk3, _⟩ := hk
    refine ⟨by simpa using hk1, fun hs => ?_⟩
    rcases hk3 with h | h
    · rcases hk2.mp h with h' | h'
      · exact absurd h' (by simp)
      · exact absurd hs h'
    · exact h

/-- Witness of C8: the two requests the specification names, for a 32-bit
`long` and a setter that accepts every value. -/
theorem HandleSet_outcome_witness :
    ((HandleSet_ushort 32 ⟨[], "70000".toList, 0⟩ (fun _ => 0) 0).status = some HTTPD_400 ∧
      (HandleSet_ushort 32 ⟨[], "70000".toList, 0⟩ (fun _ => 0) 0).setter_calls = []) ∧
    ((HandleSet_ushort 32 ⟨[], "100".toList, 0⟩ (fun _ => 0) 0).setter_calls = [100] ∧
      (HandleSet_ushort 32 ⟨[], "100".toList, 0⟩ (fun _ => 0) 0).status = none) :=
  have h := HandleSet_outcome 32 (by decide) ⟨[], [], 0⟩ (fun _ => 0) 0
  ⟨h.2.2.2.2.1, h.2.2.2.2.2.1, h.2.2.2.2.2.2 rfl⟩

/-- C9: the custom-handler adapter sets status 400 for the invalid-argument
code, 404 for the not-found code, 500 for every other non-zero code (the
generic failure code among them) and no status for code 0; in every case the
one body it sends is the text found in the response buffer after the callback. -/
theorem Handle_status_mapping (req : Request) (handler : rpc_handler_t) (resp0 : List Char) :
    ((handler req resp0).1 = ESP_ERR_INVALID_ARG →
      (Handle req handler resp0).status = some HTTPD_400) ∧
    ((handler req resp0).1 = ESP_ERR_NOT_FOUND →
      (Handle req handler resp0).status = some HTTPD_404) ∧
    ((handler req resp0).1 ≠ 0 → (handler req resp0).1 ≠ ESP_ERR_INVALID_ARG →
      (handler req resp0).1 ≠ ESP_ERR_NOT_FOUND →
      (Handle req handler resp0).status = some HTTPD_500) ∧
    ((handler req resp0).1 = ESP_FAIL → (Handle req handler resp0).status = some HTTPD_500) ∧
    ((handler req resp0).1 = 0 → (Handle req handler resp0).status = none) ∧
    (Handle req handler resp0).sent = [cstr (handler req resp0).2] := by
  unfold Handle
  dsimp only
  generalize handler req resp0 = p
  obtain ⟨res, resp⟩ := p
  dsimp only
  refine ⟨?_, ?_, ?_, ?_, ?_, ?_⟩
  · intro h; subst h; simp [ESP_ERR_INVALID_ARG]
  · intro h; subst h; simp [ESP_ERR_NOT_FOUND, ESP_ERR_INVALID_ARG]
  · intro h1 h2 h3; simp [h1, h2, h3]
  · intro h; subst h; simp [ESP_FAIL, ESP_ERR_NOT_FOUND, ESP_ERR_INVALID_ARG]
  · intro h; simp [h]
  · rfl

/-- C10 as stated fails: when the transport's send-response operation reports
a failure, `Handle` returns that failure, not `ESP_OK`, although the callback
returned success. -/
theorem Handle_returns_send_failure :
    (Handle ⟨[], [], ESP_FAIL⟩ (fun _ _ => (ESP_OK, "ok".toList ++ [NUL])) []).ret ≠ ESP_OK := by
  decide

/-- C10, amended: for every callback result code, `Handle` returns to the
transport layer exactly the result of the transport's send-response operation,
hence `ESP_OK` exactly when the response was sent successfully. -/
theorem Handle_returns_send_result (req : Request) (handler : rpc_handler_t)
    (resp0 : List Char) :
    (Handle req handler resp0).ret = req.send_result ∧
    ((Handle req handler resp0).ret = ESP_OK ↔ req.send_result = ESP_OK) := by
  unfold Handle
  exact ⟨rfl, Iff.rfl⟩

/-- C11, the code at the failing inputs: on a body that the validation for
`short` (and for `int`) rejects, the adapter sets status 400 and returns the
result of the send, `ESP_OK` when the send succeeds, not
`ESP_ERR_INVALID_ARG`; on a body that passes validation it returns the result
of the send too, a failure when the send fails. -/
theorem HandleSet_returns_send_result :
    ((TryParseShort 32 "abc".toList 0).1 = false ∧
      (HandleSet_short 32 ⟨[], "abc".toList, ESP_OK⟩ (fun _ => ESP_OK) 0).ret = ESP_OK ∧
      (HandleSet_short 32 ⟨[], "abc".toList, ESP_OK⟩ (fun _ => ESP_OK) 0).status
        = some HTTPD_400) ∧
    ((TryParseInt 32 "abc".toList 0).1 = false ∧
      (HandleSet_int 32 ⟨[], "abc".toList, ESP_OK⟩ (fun _ => ESP_OK) 0).ret = ESP_OK) ∧
    ((TryParseInt 32 "12".toList 0).1 = true ∧
      (HandleSet_int 32 ⟨[], "12".toList, ESP_FAIL⟩ (fun _ => ESP_OK) 0).ret = ESP_FAIL) ∧
    ESP_OK ≠ ESP_ERR_INVALID_ARG := by
  decide

/-- The shared body of the numeric SET adapters sends one empty body. -/
theorem HandleSetNumeric_sent (TryParse : List Char → Int → Bool × Int) (conv : Int → Int)
    (req : Request) (setter : rpc_set_handler_t) (val0 : Int) :
    (HandleSetNumeric TryParse conv req setter val0).sent = [[]] := by
  unfold HandleSetNumeric
  dsimp only
  split
  · rfl
  · split <;> rfl

/-- C12: every dispatch adapter (`Handle`, `HandleGet<T>`, the six numeric
`HandleSet<T>` and the string `HandleSet`) performs exactly one send on every
invocation, whatever the body, the parse outcome or the callback's result. -/
theorem adapters_send_exactly_once {σ : Type} (w : Nat) (req : Request)
    (handler : rpc_handler_t) (resp0 : List Char) (getter : σ → Int × σ) (world : σ)
    (setter : rpc_set_handler_t) (val0 : Int) (string_setter : List Char → Int) :
    (Handle req handler resp0).sent.length = 1 ∧
    (HandleGet req getter world).1.sent.length = 1 ∧
    (HandleSet_short w req setter val0).sent.length = 1 ∧
    (HandleSet_ushort w req setter val0).sent.length = 1 ∧
    (HandleSet_int w req setter val0).sent.length = 1 ∧
    (HandleSet_uint w req setter val0).sent.length = 1 ∧
    (HandleSet_long w req setter val0).sent.length = 1 ∧
    (HandleSet_ulong w req setter val0).sent.length = 1 ∧
    (HandleSet_string req string_setter).1.sent.length = 1 := by
  refine ⟨rfl, rfl, ?_, ?_, ?_, ?_, ?_, ?_, rfl⟩
  · unfold HandleSet_short; rw [HandleSetNumeric_sent]; rfl
  · unfold HandleSet_ushort; rw [HandleSetNumeric_sent]; rfl
  · unfold HandleSet_int; rw [HandleSetNumeric_sent]; rfl
  · unfold HandleSet_uint; rw [HandleSetNumeric_sent]; rfl
  · unfold HandleSet_long; rw [HandleSetNumeric_sent]; rfl
  · unfold HandleSet_ulong; rw [HandleSetNumeric_sent]; rfl

/-- C13: `RegisterPropertyHandler` returns `ESP_OK` exactly when the GET and
the PUT registration both succeed, and `ESP_FAIL` otherwise; it requests the
GET registration first and the PUT registration only when the GET one
succeeded; when the GET registration succeeds and the PUT one fails, the call
reports failure and the GET route stays in the route table.  The last part
shows such a case on a server with room for one route. -/
theorem RegisterPropertyHandler_outcome (this_uri : List Char) (server : Server)
    (uri : List Char) (getter setter : Nat) :
    ((RegisterPropertyHandler this_uri server uri getter setter).1 = ESP_OK ↔
      ((RegisterGetHandler this_uri server uri getter).1 = ESP_OK ∧
       (RegisterSetHandler this_uri (RegisterGetHandler this_uri server uri getter).2 uri
          setter).1 = ESP_OK)) ∧
    ((RegisterPropertyHandler this_uri server uri getter setter).1 ≠ ESP_OK →
      (RegisterPropertyHandler this_uri server uri getter setter).1 = ESP_FAIL) ∧
    ((RegisterPropertyHandler this_uri server uri getter setter).2.attempts =
      server.attempts ++
        ⟨endpoint this_uri uri, HTTP_GET, Adapter.HandleGet, getter⟩ ::
          (if (RegisterGetHandler this_uri server uri getter).1 = ESP_OK
            then [⟨endpoint this_uri uri, HTTP_PUT, Adapter.HandleSet, setter⟩] else [])) ∧
    ((RegisterGetHandler this_uri server uri getter).1 = ESP_OK →
      (RegisterSetHandler this_uri (RegisterGetHandler this_uri server uri getter).2 uri
          setter).1 ≠ ESP_OK →
      ((RegisterPropertyHandler this_uri server uri getter setter).1 = ESP_FAIL ∧
        (⟨endpoint this_uri uri, HTTP_GET, Adapter.HandleGet, getter⟩ : httpd_uri_t) ∈
          (RegisterPropertyHandler this_uri server uri getter setter).2.routes)) ∧
    ((RegisterPropertyHandler "/rpc/".toList
        ⟨[], [], fun routes _ => if routes.length < 1 then ESP_OK else 0xb001⟩
        "foo".toList 1 2).1 = ESP_FAIL ∧
      (RegisterPropertyHandler "/rpc/".toList
        ⟨[], [], fun routes _ => if routes.length < 1 then ESP_OK else 0xb001⟩
        "foo".toList 1 2).2.routes = [⟨"/rpc/foo".toList, HTTP_GET, Adapter.HandleGet, 1⟩]) := by
  refine ⟨?_, ?_, ?_, ?_, by decide⟩
  all_goals
    unfold RegisterPropertyHandler RegisterSetHandler RegisterGetHandler
      httpd_register_uri_handler ESP_OK ESP_FAIL
    dsimp only
  · by_cases h1 : server.verdict server.routes
        ⟨endpoint this_uri uri, HTTP_GET, Adapter.HandleGet, getter⟩ = 0
    · simp only [h1, ne_eq, not_true_eq_false, if_false, if_true, true_and]
      split <;> simp_all
    · simp [h1]
  · by_cases h1 : server.verdict server.routes
        ⟨endpoint this_uri uri, HTTP_GET, Adapter.HandleGet, getter⟩ = 0
    · simp only [h1, ne_eq, not_true_eq_false, if_false, if_true]
      split <;> simp_all
    · simp [h1]
  · by_cases h1 : server.verdict server.routes
        ⟨endpoint this_uri uri, HTTP_GET, Adapter.HandleGet, getter⟩ = 0
    · simp only [h1, ne_eq, not_true_eq_false, if_false, if_true]
      split <;> simp
    · simp [h1]
  · intro h1 h2
    simp only [h1, ne_eq, not_true_eq_false, if_false, if_true] at h2 ⊢
    simp [h2]

/-- C14 as stated fails: a server that rejects every registration with the
code `0xb001` (table full) makes `RegisterPropertyHandler` return `ESP_FAIL`,
not that code. -/
theorem RegisterPropertyHandler_hides_code :
    (RegisterGetHandler "/rpc/".toList ⟨[], [], fun _ _ => 0xb001⟩ "foo".toList 1).1 = 0xb001 ∧
    (RegisterPropertyHandler "/rpc/".toList ⟨[], [], fun _ _ => 0xb001⟩ "foo".toList 1 2).1
      = ESP_FAIL ∧
    ESP_FAIL ≠ 0xb001 := by
  decide

/-- C14, amended: for every error code `e` with which the server rejects the
registration, `RegisterHandler` (its assertion holding), `RegisterGetHandler`
and `RegisterSetHandler` return exactly `e`, while `RegisterPropertyHandler`
returns `ESP_FAIL` whichever of its two registrations is rejected and whatever
`e` is. -/
theorem registration_failure_result (this_uri : List Char) (server : Server) (uri : List Char)
    (method callback setter : Nat) (e : Int) (he : e ≠ ESP_OK) :
    (server.verdict server.routes ⟨endpoint this_uri uri, method, Adapter.Handle, callback⟩ = e →
      0 < strlen this_uri + strlen uri →
      (RegisterHandler this_uri server uri method callback).map Prod.fst = some e) ∧
    (server.verdict server.routes
        ⟨endpoint this_uri uri, HTTP_GET, Adapter.HandleGet, callback⟩ = e →
      ((RegisterGetHandler this_uri server uri callback).1 = e ∧
       (RegisterPropertyHandler this_uri server uri callback setter).1 = ESP_FAIL)) ∧
    (server.verdict server.routes
        ⟨endpoint this_uri uri, HTTP_PUT, Adapter.HandleSet, callback⟩ = e →
      (RegisterSetHandler this_uri server uri callback).1 = e) ∧
    ((RegisterGetHandler this_uri server uri callback).1 = ESP_OK →
      (RegisterSetHandler this_uri (RegisterGetHandler this_uri server uri callback).2 uri
        setter).1 = e →
      (RegisterPropertyHandler this_uri server uri callback setter).1 = ESP_FAIL) := by
  unfold ESP_OK at he
  refine ⟨?_, ?_, ?_, ?_⟩
  · intro hv hlen
    unfold RegisterHandler httpd_register_uri_handler
    dsimp only
    rw [if_pos hlen]
    simp [hv]
  · intro hv
    unfold RegisterPropertyHandler RegisterGetHandler httpd_register_uri_handler
    dsimp only
    simp [hv, he]
  · intro hv
    unfold RegisterSetHandler httpd_register_uri_handler
    dsimp only
    exact hv
  · intro h1 h2
    unfold RegisterPropertyHandler
    unfold ESP_OK at h1
    dsimp only
    simp [h1, h2, he]

/-- Witness of the amended C14: a full server rejects the GET registration of
`/rpc/foo` with `0xb001`, and `RegisterGetHandler` returns that code. -/
theorem registration_failure_result_witness :
    (RegisterGetHandler "/rpc/".toList ⟨[], [], fun _ _ => 0xb001⟩ "foo".toList 1).1 = 0xb001 :=
  ((registration_failure_result "/rpc/".toList ⟨[], [], fun _ _ => 0xb001⟩ "foo".toList 1 1 2
    0xb001 (by decide)).2.1 rfl).1

/-- C15, the code at the failing inputs: with a 64-bit `long` the body
`4294967296` parses as `long` and as `unsigned long` to 4294967296, and the
adapters `HandleSet<long>` and `HandleSet<ulong>` call the setter with 0; the
body `-4294967295` parses as `long` to -4294967295 and the setter is called
with 1. -/
theorem HandleSet_long_narrows :
    (TryParseLong 64 "4294967296".toList 0 = (true, 4294967296) ∧
      (HandleSet_long 64 ⟨[], "4294967296".toList, ESP_OK⟩ (fun _ => ESP_OK) 0).setter_calls
        = [0]) ∧
    (TryParseUlong 64 "4294967296".toList 0 = (true, 4294967296) ∧
      (HandleSet_ulong 64 ⟨[], "4294967296".toList, ESP_OK⟩ (fun _ => ESP_OK) 0).setter_calls
        = [0]) ∧
    (TryParseLong 64 "-4294967295".toList 0 = (true, -4294967295) ∧
      (HandleSet_long 64 ⟨[], "-4294967295".toList, ESP_OK⟩ (fun _ => ESP_OK) 0).setter_calls
        = [1]) := by
  decide

/-- C16: the typed GET adapter runs the getter once, sends as its one body the
decimal text of the value the getter returned, sets no status (default 200)
and returns `ESP_OK`; none of this depends on the request, so any two requests
get the same response; a getter returning 42 yields the body `42` for every
query string. -/
theorem HandleGet_response {σ : Type} (req1 req2 : Request) (getter : σ → Int × σ) (world : σ) :
    (HandleGet req1 getter world).2 = (getter world).2 ∧
    (HandleGet req1 getter world).1.sent = [decimal_text (getter world).1] ∧
    (HandleGet req1 getter world).1.status = none ∧
    (HandleGet req1 getter world).1.ret = ESP_OK ∧
    HandleGet req1 getter world = HandleGet req2 getter world ∧
    (HandleGet ⟨req1.query, req1.content, req1.send_result⟩ (fun s : σ => (42, s)) world).1.sent
      = ["42".toList] := by
  have hc : ∀ v : Int, cstr (String_of v) = decimal_text v := fun v =>
    (decimal_text_shape v).1
  refine ⟨rfl, ?_, rfl, rfl, rfl, ?_⟩
  · unfold HandleGet
    dsimp only
    rw [hc]
  · unfold HandleGet
    dsimp only
    rw [hc]
    decide

/-! ### Octal forms and trailing letters -/

/-- What the program's character tests say of a decimal digit. -/
theorem isdigit_facts (c : Char) (h : isdigit c = true) :
    digitOf c = some (c.toNat - 48) ∧ c.toNat - 48 < 10 ∧ isalnum c = true := by
  have hd := h
  unfold isdigit at hd
  simp only [Bool.and_eq_true, decide_eq_true_eq] at hd
  refine ⟨?_, by omega, ?_⟩
  · unfold digitOf
    rw [if_pos h]
  · unfold isalnum
    rw [h]
    rfl

/-- What the program's character tests say of an octal digit. -/
theorem octalDigit_facts (c : Char) (h : isOctalDigit c = true) :
    digitOf c = some (c.toNat - 48) ∧ c.toNat - 48 < 8 ∧ isdigit c = true ∧
    c ≠ 'x' ∧ c ≠ 'X' := by
  have ho := h
  unfold isOctalDigit at ho
  simp only [Bool.and_eq_true, decide_eq_true_eq] at ho
  have hd : isdigit c = true := by
    unfold isdigit
    simp only [Bool.and_eq_true, decide_eq_true_eq]
    omega
  refine ⟨(isdigit_facts c hd).1, by omega, hd, ?_, ?_⟩
  · rintro rfl; exact absurd h (by decide)
  · rintro rfl; exact absurd h (by decide)

/-- The digit loop in base 8 on a string of octal digits computes its base-8
value. -/
theorem accumulate_octal (o : List Char) (ho : ∀ c ∈ o, isOctalDigit c = true) (acc : Nat) :
    accumulate 8 o acc = o.foldl (fun acc c => acc * 8 + (c.toNat - 48)) acc := by
  induction o generalizing acc with
  | nil => rfl
  | cons a t ih =>
    obtain ⟨h1, h2, _, _, _⟩ := octalDigit_facts a (ho a (List.mem_cons_self a t))
    simp only [accumulate, h1, h2, if_true, List.foldl_cons]
    exact ih (fun c hc => ho c (List.mem_cons_of_mem a hc)) _

/-- On `0` followed by a character other than `x` and `X`, `strtol` converts
in base 8. -/
theorem strtol_octal (w : Nat) (a : Char) (t : List Char)
    (hcs : cstr ('0' :: a :: t) = '0' :: a :: t) (hx : a ≠ 'x') (hX : a ≠ 'X') :
    strtol w ('0' :: a :: t) = min ((accumulate 8 (a :: t) 0 : Nat) : Int) (LONG_MAX w) := by
  have hsp : isspace '0' = false := by decide
  have h0 : digitOf '0' = some 0 := by decide
  unfold strtol
  rw [hcs]
  simp [List.dropWhile_cons, hsp, hx, hX, accumulate, h0]

/-- C17: for every string of `0` followed by one or more octal digits whose
base-8 value `n` is at most `INT_MAX`, `TryParseInt` returns success with
output `n`. -/
theorem TryParseInt_octal (w : Nat) (hw : 32 ≤ w) (o : List Char) (out : Int) (hne : o ≠ [])
    (ho : ∀ c ∈ o, isOctalDigit c = true) (hn : (octalValue o : Int) ≤ INT_MAX) :
    TryParseInt w ('0' :: o) out = (true, (octalValue o : Int)) := by
  have hc := long_covers_int w hw
  unfold INT_MAX at hn
  obtain ⟨a, t, rfl⟩ : ∃ a t, o = a :: t := by
    cases o with
    | nil => exact absurd rfl hne
    | cons a t => exact ⟨a, t, rfl⟩
  have hdig : ∀ c ∈ a :: t, isdigit c = true := fun c hc => (octalDigit_facts c (ho c hc)).2.2.1
  have hcs : cstr ('0' :: a :: t) = '0' :: a :: t := by
    apply cstr_eq_self
    intro c hc
    rcases List.mem_cons.mp hc with rfl | hc
    · decide
    · exact (isdigit_not_space_sign c (hdig c hc)).2.2.2
  obtain ⟨_, _, _, hx, hX⟩ := octalDigit_facts a (ho a (List.mem_cons_self a t))
  have h1 : isNumber ('0' :: a :: t) = true :=
    isNumber_of_digit_tail _ _ hcs (Or.inr (by decide)) hdig
  have h2 : strtol w ('0' :: a :: t) = min ((octalValue (a :: t) : Nat) : Int) (LONG_MAX w) := by
    rw [strtol_octal w a t hcs hx hX, accumulate_octal _ ho 0]
    rfl
  unfold TryParseInt
  simp only [h1, h2, if_true, INT_MAX, INT_MIN, toInt]
  rw [if_pos (by omega)]
  congr 1
  omega

/-- Witness of C17: `TryParseInt("010")` is `(true, 8)`, for a 32-bit `long`. -/
theorem TryParseInt_octal_witness :
    octalValue "10".toList = 8 ∧ TryParseInt 32 "010".toList 0 = (true, 8) :=
  ⟨by decide, TryParseInt_octal 32 (by decide) "10".toList 0 (by decide) (by decide)
    (by decide)⟩

/-- The digit loop in base 10 runs through a prefix of decimal digits. -/
theorem accumulate_isdigit_append (xs ys : List Char) (h : ∀ c ∈ xs, isdigit c = true)
    (acc : Nat) :
    accumulate 10 (xs ++ ys) acc = accumulate 10 ys (accumulate 10 xs acc) := by
  induction xs generalizing acc with
  | nil => rfl
  | cons a t ih =>
    obtain ⟨h1, h2, _⟩ := isdigit_facts a (h a (List.mem_cons_self a t))
    simp only [List.cons_append, accumulate, h1, h2, if_true]
    exact ih (fun c hc => h c (List.mem_cons_of_mem a hc)) _

/-- The digit loop in base 10 stops at a letter. -/
theorem accumulate_stops_at_letter (c : Char) (t : List Char)
    (hc : isupper c = true ∨ islower c = true) (acc : Nat) :
    accumulate 10 (c :: t) acc = acc := by
  have key : ∃ v, digitOf c = some v ∧ 10 ≤ v := by
    unfold isupper islower at hc
    simp only [Bool.and_eq_true, decide_eq_true_eq] at hc
    unfold digitOf isdigit isupper islower
    simp only [Bool.and_eq_true, decide_eq_true_eq]
    split_ifs with h1 h2 h3
    · exfalso; omega
    · exact ⟨_, rfl, by omega⟩
    · exact ⟨_, rfl, by omega⟩
    · exfalso; omega
  obtain ⟨v, hv, hge⟩ := key
  have hlt : ¬ v < 10 := by omega
  simp only [accumulate, hv, hlt, if_false]

/-- An alphanumeric character is not the terminator. -/
theorem isalnum_ne_NUL (c : Char) (h : isalnum c = true) : c ≠ NUL := by
  rintro rfl
  exact absurd h (by decide)

/-- The validator accepts two digits followed by alphanumeric characters. -/
theorem isNumber_of_two_digits (a b : Char) (r : List Char)
    (hcs : cstr (a :: b :: r) = a :: b :: r) (ha : isdigit a = true) (hb : isdigit b = true)
    (hr : ∀ c ∈ r, isalnum c = true) : isNumber (a :: b :: r) = true := by
  unfold isNumber
  rw [hcs]
  cases r with
  | nil => simp [ha, hb]
  | cons c u =>
    have hc := hr c (List.mem_cons_self c u)
    have hu : ∀ x ∈ u, isalnum x = true := fun x hx => hr x (List.mem_cons_of_mem c hx)
    simp [ha, hb, hc]
    exact hu

/-- A string of at least two digits that does not start with `0`, followed by
a letter and further alphanumeric characters: the validator accepts it with
and without what follows the digits, and `strtol` gives the same value. -/
theorem digits_then_letter (w : Nat) (d t : List Char) (hlen : 2 ≤ d.length)
    (hd : ∀ c ∈ d, isdigit c = true) (h0 : d.head? ≠ some '0') (hne : t ≠ [])
    (hal : ∀ c ∈ t, isalnum c = true)
    (hl : ∀ c, t.head? = some c → (isupper c = true ∨ islower c = true)) :
    isNumber (d ++ t) = true ∧ isNumber d = true ∧ strtol w (d ++ t) = strtol w d := by
  obtain ⟨a, b, r, rfl⟩ : ∃ a b r, d = a :: b :: r := by
    match d, hlen with
    | a :: b :: r, _ => exact ⟨a, b, r, rfl⟩
  obtain ⟨c, u, rfl⟩ : ∃ c u, t = c :: u := by
    cases t with
    | nil => exact absurd rfl hne
    | cons c u => exact ⟨c, u, rfl⟩
  have hc := hl c rfl
  have ha := hd a (by simp)
  have hb := hd b (by simp)
  have ha0 : a ≠ '0' := fun h => h0 (by rw [h]; rfl)
  have hdn : ∀ x ∈ a :: b :: r, x ≠ NUL := fun x hx =>
    (isdigit_not_space_sign x (hd x hx)).2.2.2
  have hcs1 : cstr (a :: b :: r) = a :: b :: r := cstr_eq_self _ hdn
  have hcs2 : cstr (a :: b :: (r ++ c :: u)) = a :: b :: (r ++ c :: u) := by
    apply cstr_eq_self
    intro x hx
    have hx' : x ∈ (a :: b :: r) ++ (c :: u) := by simpa using hx
    rcases List.mem_append.mp hx' with hx | hx
    · exact hdn x hx
    · exact isalnum_ne_NUL x (hal x hx)
  have hr : ∀ x ∈ r ++ c :: u, isalnum x = true := by
    intro x hx
    rcases List.mem_append.mp hx with hx | hx
    · exact (isdigit_facts x (hd x (by simp [hx]))).2.2
    · exact hal x hx
  refine ⟨?_, ?_, ?_⟩
  · exact isNumber_of_two_digits a b _ hcs2 ha hb hr
  · exact isNumber_of_two_digits a b r hcs1 ha hb
      (fun x hx => (isdigit_facts x (hd x (by simp [hx]))).2.2)
  · show strtol w (a :: b :: (r ++ c :: u)) = strtol w (a :: b :: r)
    rw [strtol_decimal w a _ hcs2 ha ha0, strtol_decimal w a _ hcs1 ha ha0]
    have e1 : a :: b :: (r ++ c :: u) = (a :: b :: r) ++ (c :: u) := rfl
    rw [e1, accumulate_isdigit_append _ _ hd, accumulate_stops_at_letter c u hc]

/-- C18: for every string `d` of at least two decimal digits that does not
start with `0` and every non-empty alphanumeric string `t` that starts with a
letter, `isNumber(d ++ t)` is true and each typed parser returns on `d ++ t`
what it returns on `d` alone; `TryParseInt("12a")` is `(true, 12)` and
`TryParseInt("5xyz")` is `(true, 5)`. -/
theorem trailing_letters_truncated (w : Nat) (hw : 32 ≤ w) (d t : List Char) (out : Int)
    (hlen : 2 ≤ d.length) (hd : ∀ c ∈ d, isdigit c = true) (h0 : d.head? ≠ some '0')
    (hne : t ≠ []) (hal : ∀ c ∈ t, isalnum c = true)
    (hl : ∀ c, t.head? = some c → (isupper c = true ∨ islower c = true)) :
    isNumber (d ++ t) = true ∧
    TryParseShort w (d ++ t) out = TryParseShort w d out ∧
    TryParseUshort w (d ++ t) out = TryParseUshort w d out ∧
    TryParseInt w (d ++ t) out = TryParseInt w d out ∧
    TryParseUint w (d ++ t) out = TryParseUint w d out ∧
    TryParseLong w (d ++ t) out = TryParseLong w d out ∧
    TryParseUlong w (d ++ t) out = TryParseUlong w d out ∧
    TryParseInt w "12a".toList out = (true, 12) ∧
    TryParseInt w "5xyz".toList out = (true, 5) := by
  obtain ⟨h1, h2, h3⟩ := digits_then_letter w d t hlen hd h0 hne hal hl
  have hval : ∀ (s : List Char) (v : Int), isNumber s = true → strtol 32 s = v →
      (LONG_MIN 32 < v ∧ v < LONG_MAX 32) → (v ≤ INT_MAX ∧ v ≥ INT_MIN) → toInt v = v →
      TryParseInt w s out = (true, v) := by
    intro s v hn hs hin hr hv
    have e : strtol w s = v := by
      rw [strtol_eq_of_inside w hw s (by rw [hs]; exact hin), hs]
    unfold TryParseInt
    simp only [hn, e, hr, hv, if_true, and_self]
  refine ⟨h1, ?_, ?_, ?_, ?_, ?_, ?_, ?_, ?_⟩
  · unfold TryParseShort; rw [h1, h2, h3]
  · unfold TryParseUshort; rw [h1, h2, h3]
  · unfold TryParseInt; rw [h1, h2, h3]
  · unfold TryParseUint; rw [h1, h2, h3]
  · unfold TryParseLong; rw [h1, h2, h3]
  · unfold TryParseUlong; rw [h1, h2, h3]
  · exact hval "12a".toList 12 (by decide) (by decide) (by decide) (by decide) (by decide)
  · exact hval "5xyz".toList 5 (by decide) (by decide) (by decide) (by decide) (by decide)

/-- Witness of C18: `TryParseInt("12a")` agrees with `TryParseInt("12")`, for a
32-bit `long`. -/
theorem trailing_letters_truncated_witness :
    TryParseInt 32 ("12".toList ++ "a".toList) 0 = TryParseInt 32 "12".toList 0 ∧
    TryParseInt 32 "12".toList 0 = (true, 12) :=
  ⟨(trailing_letters_truncated 32 (by decide) "12".toList "a".toList 0 (by decide) (by decide)
    (by decide) (by decide) (by decide) (by decide)).2.2.2.1, by decide⟩

/-! ### Inputs without digits, negative text -/

/-- The shared body of the numeric SET adapters calls the setter with the
converted value when its parser succeeds on the terminated buffer. -/
theorem HandleSetNumeric_calls (TryParse : List Char → Int → Bool × Int) (conv : Int → Int)
    (req : Request) (setter : rpc_set_handler_t) (val0 v : Int)
    (hp : TryParse (req.content.take 16 ++ [NUL]) val0 = (true, v)) :
    (HandleSetNumeric TryParse conv req setter val0).setter_calls = [conv v] := by
  unfold HandleSetNumeric httpd_req_recv
  dsimp only
  rw [hp]
  dsimp only
  split
  · contradiction
  · split <;> rfl

/-- The six typed parsers on an input that the validator accepts and `strtol`
converts to 0. -/
theorem TryParse_of_zero (w : Nat) (s : List Char) (out : Int) (hn : isNumber s = true)
    (hz : strtol w s = 0) :
    TryParseShort w s out = (true, 0) ∧ TryParseUshort w s out = (true, 0) ∧
    TryParseInt w s out = (true, 0) ∧ TryParseUint w s out = (true, 0) ∧
    TryParseLong w s out = (true, 0) ∧ TryParseUlong w s out = (true, 0) := by
  have hle : le_UINT_MAX w 0 = true := by
    unfold le_UINT_MAX UINT_MAX
    split <;> simp
  unfold TryParseShort TryParseUshort TryParseInt TryParseUint TryParseLong TryParseUlong
  simp only [hn, hz, hle, if_true]
  refine ⟨?_, ?_, ?_, ?_, trivial, ?_⟩
  · rw [if_pos (by decide)]; rfl
  · rw [if_pos (by decide)]; rfl
  · rw [if_pos (by decide)]; rfl
  · rw [if_pos (by decide)]; rfl
  · unfold toUlong; simp

/-- C19: on each of the inputs `-`, `-x`, `0x` and `0X` the validator returns
true and each of the six typed parsers returns success with output 0, so each
typed SET adapter given such a body calls the setter with 0. -/
theorem no_digit_inputs_parse_zero (w : Nat) (hw : 32 ≤ w) (s : List Char)
    (hs : s ∈ ["-".toList, "-x".toList, "0x".toList, "0X".toList]) (req : Request)
    (hreq : req.content = s) (setter : rpc_set_handler_t) (out : Int) :
    isNumber s = true ∧
    (TryParseShort w s out = (true, 0) ∧ TryParseUshort w s out = (true, 0) ∧
      TryParseInt w s out = (true, 0) ∧ TryParseUint w s out = (true, 0) ∧
      TryParseLong w s out = (true, 0) ∧ TryParseUlong w s out = (true, 0)) ∧
    ((HandleSet_short w req setter out).setter_calls = [0] ∧
      (HandleSet_ushort w req setter out).setter_calls = [0] ∧
      (HandleSet_int w req setter out).setter_calls = [0] ∧
      (HandleSet_uint w req setter out).setter_calls = [0] ∧
      (HandleSet_long w req setter out).setter_calls = [0] ∧
      (HandleSet_ulong w req setter out).setter_calls = [0]) := by
  have hfin : ∀ x ∈ ["-".toList, "-x".toList, "0x".toList, "0X".toList],
      isNumber x = true ∧ strtol 32 x = 0 ∧ List.take 16 x = x := by decide
  obtain ⟨hn, h32, htake⟩ := hfin s hs
  have hz : strtol w s = 0 := by
    rw [strtol_eq_of_inside w hw s (by rw [h32]; decide), h32]
  have hp := TryParse_of_zero w s out hn hz
  subst hreq
  have ht := TryParse_terminated w (List.take 16 req.content) out
  refine ⟨hn, hp, ?_, ?_, ?_, ?_, ?_, ?_⟩
  · unfold HandleSet_short
    rw [HandleSetNumeric_calls _ _ _ _ _ 0 (by rw [ht.1, htake, hp.1])]; rfl
  · unfold HandleSet_ushort
    rw [HandleSetNumeric_calls _ _ _ _ _ 0 (by rw [ht.2.1, htake, hp.2.1])]; rfl
  · unfold HandleSet_int
    rw [HandleSetNumeric_calls _ _ _ _ _ 0 (by rw [ht.2.2.1, htake, hp.2.2.1])]; rfl
  · unfold HandleSet_uint
    rw [HandleSetNumeric_calls _ _ _ _ _ 0 (by rw [ht.2.2.2.1, htake, hp.2.2.2.1])]; rfl
  · unfold HandleSet_long
    rw [HandleSetNumeric_calls _ _ _ _ _ 0 (by rw [ht.2.2.2.2.1, htake, hp.2.2.2.2.1])]; rfl
  · unfold HandleSet_ulong
    rw [HandleSetNumeric_calls _ _ _ _ _ 0 (by rw [ht.2.2.2.2.2, htake, hp.2.2.2.2.2])]; rfl

/-- Witness of C19: the body `-x` with a 32-bit `long`: `TryParseInt` gives
`(true, 0)` and `HandleSet<int>` calls the setter with 0. -/
theorem no_digit_inputs_parse_zero_witness :
    TryParseInt 32 "-x".toList 7 = (true, 0) ∧
    (HandleSet_int 32 ⟨[], "-x".toList, ESP_OK⟩ (fun _ => ESP_OK) 7).setter_calls = [0] :=
  have h := no_digit_inputs_parse_zero 32 (by decide) "-x".toList (by decide)
    ⟨[], "-x".toList, ESP_OK⟩ rfl (fun _ => ESP_OK) 7
  ⟨h.2.1.2.2.1, h.2.2.2.2.1⟩

/-- C20: on every input that the validator accepts and `strtol` converts to a
negative value `v`, `TryParseUlong` returns success and stores `v` modulo
`2^w`, while `TryParseUshort` and `TryParseUint` fail; `TryParseUlong("-1")`
is `(true, ULONG_MAX)`. -/
theorem TryParseUlong_accepts_negative (w : Nat) (hw : 32 ≤ w) (s : List Char) (out : Int)
    (hn : isNumber s = true) (hv : strtol w s < 0) :
    TryParseUlong w s out = (true, strtol w s % 2 ^ w) ∧
    (TryParseUshort w s out).1 = false ∧
    (TryParseUint w s out).1 = false ∧
    TryParseUlong w "-1".toList out = (true, ULONG_MAX w) := by
  refine ⟨?_, ?_, ?_, ?_⟩
  · unfold TryParseUlong toUlong
    rw [if_pos hn]
  · unfold TryParseUshort
    simp only [hn, if_true]
    rw [if_neg (by omega)]
  · unfold TryParseUint
    simp only [hn, if_true]
    rw [if_neg (by omega)]
  · have h1 : strtol w "-1".toList = -1 := by
      rw [strtol_eq_of_inside w hw _ (by decide)]; decide
    have h2 : isNumber "-1".toList = true := by decide
    have hpos : (0 : Int) < 2 ^ w := by positivity
    have hmod : (-1 : Int) % 2 ^ w = 2 ^ w - 1 := by
      have e : (-1 : Int) % 2 ^ w = (2 ^ w - 1) % 2 ^ w := by
        rw [← Int.add_emod_self]; congr 1; ring
      rw [e]
      exact Int.emod_eq_of_lt (by omega) (by omega)
    unfold TryParseUlong toUlong ULONG_MAX
    rw [if_pos h2, h1, hmod]

/-- Witness of C20: `-1` with a 32-bit `long`: `TryParseUlong` stores
4294967295, `TryParseUshort` and `TryParseUint` fail. -/
theorem TryParseUlong_accepts_negative_witness :
    TryParseUlong 32 "-1".toList 0 = (true, 4294967295) ∧
    (TryParseUshort 32 "-1".toList 0).1 = false ∧
    (TryParseUint 32 "-1".toList 0).1 = false :=
  have h := TryParseUlong_accepts_negative 32 (by decide) "-1".toList 0 (by decide) (by decide)
  ⟨h.2.2.2, h.2.1, h.2.2.1⟩

end RpcServer
